import Mathlib

/-!
Verification development for the "GitHub Organization as Code" repository.

The Python sources under `scripts/` and `.github/scripts/` are shallowly
embedded below: YAML values (as produced by `yaml.safe_load`) become the
inductive type `Val`, Python dicts become insertion-ordered association
lists, in-place mutation becomes explicit state passing, and code that can
raise becomes `Except String`-valued.  The GitHub REST API is modelled by an
explicit environment of fault flags (`ApiEnv`) plus a `RepoState` record of
the live attributes the scripts read and write.
-/

namespace RepoAsCode

/-- YAML/JSON-like values, the result type of `yaml.safe_load` and the value
type of all configuration dictionaries manipulated by the scripts. -/
inductive Val where
  | null : Val
  | bool : Bool → Val
  | int : Int → Val
  | str : String → Val
  | list : List Val → Val
  | dict : List (String × Val) → Val
deriving Repr

mutual

/-- Decidable equality for `Val` (the `deriving` handler does not support
this nested inductive, so it is spelled out). -/
def Val.decEq : (a b : Val) → Decidable (a = b)
  | .null, .null => isTrue rfl
  | .bool a, .bool b =>
      if h : a = b then isTrue (by rw [h]) else isFalse (by simp [h])
  | .int a, .int b =>
      if h : a = b then isTrue (by rw [h]) else isFalse (by simp [h])
  | .str a, .str b =>
      if h : a = b then isTrue (by rw [h]) else isFalse (by simp [h])
  | .list a, .list b =>
      match Val.decEqList a b with
      | isTrue h => isTrue (by rw [h])
      | isFalse h => isFalse (by simp [h])
  | .dict a, .dict b =>
      match Val.decEqDict a b with
      | isTrue h => isTrue (by rw [h])
      | isFalse h => isFalse (by simp [h])
  | .null, .bool _ => isFalse (fun h => nomatch h)
  | .null, .int _ => isFalse (fun h => nomatch h)
  | .null, .str _ => isFalse (fun h => nomatch h)
  | .null, .list _ => isFalse (fun h => nomatch h)
  | .null, .dict _ => isFalse (fun h => nomatch h)
  | .bool _, .null => isFalse (fun h => nomatch h)
  | .bool _, .int _ => isFalse (fun h => nomatch h)
  | .bool _, .str _ => isFalse (fun h => nomatch h)
  | .bool _, .list _ => isFalse (fun h => nomatch h)
  | .bool _, .dict _ => isFalse (fun h => nomatch h)
  | .int _, .null => isFalse (fun h => nomatch h)
  | .int _, .bool _ => isFalse (fun h => nomatch h)
  | .int _, .str _ => isFalse (fun h => nomatch h)
  | .int _, .list _ => isFalse (fun h => nomatch h)
  | .int _, .dict _ => isFalse (fun h => nomatch h)
  | .str _, .null => isFalse (fun h => nomatch h)
  | .str _, .bool _ => isFalse (fun h => nomatch h)
  | .str _, .int _ => isFalse (fun h => nomatch h)
  | .str _, .list _ => isFalse (fun h => nomatch h)
  | .str _, .dict _ => isFalse (fun h => nomatch h)
  | .list _, .null => isFalse (fun h => nomatch h)
  | .list _, .bool _ => isFalse (fun h => nomatch h)
  | .list _, .int _ => isFalse (fun h => nomatch h)
  | .list _, .str _ => isFalse (fun h => nomatch h)
  | .list _, .dict _ => isFalse (fun h => nomatch h)
  | .dict _, .null => isFalse (fun h => nomatch h)
  | .dict _, .bool _ => isFalse (fun h => nomatch h)
  | .dict _, .int _ => isFalse (fun h => nomatch h)
  | .dict _, .str _ => isFalse (fun h => nomatch h)
  | .dict _, .list _ => isFalse (fun h => nomatch h)

def Val.decEqList : (a b : List Val) → Decidable (a = b)
  | [], [] => isTrue rfl
  | [], _ :: _ => isFalse (fun h => nomatch h)
  | _ :: _, [] => isFalse (fun h => nomatch h)
  | x :: xs, y :: ys =>
      match Val.decEq x y with
      | isFalse h => isFalse (by simp [h])
      | isTrue h =>
        match Val.decEqList xs ys with
        | isTrue h' => isTrue (by rw [h, h'])
        | isFalse h' => isFalse (by simp [h'])

def Val.decEqDict : (a b : List (String × Val)) → Decidable (a = b)
  | [], [] => isTrue rfl
  | [], _ :: _ => isFalse (fun h => nomatch h)
  | _ :: _, [] => isFalse (fun h => nomatch h)
  | (k, x) :: xs, (k', y) :: ys =>
      if hk : k = k' then
        match Val.decEq x y with
        | isFalse h => isFalse (by simp [h])
        | isTrue h =>
          match Val.decEqDict xs ys with
          | isTrue h' => isTrue (by rw [hk, h, h'])
          | isFalse h' => isFalse (by simp [h'])
      else isFalse (by simp [hk])

end

instance : DecidableEq Val := Val.decEq

instance : BEq Val := instBEqOfDecidableEq

/-- First-match lookup in an insertion-ordered dictionary (Python `d[k]` /
`d.get(k)` on dicts, whose keys are unique by construction). -/
def lookupKey {α : Type} : List (String × α) → String → Option α
  | [], _ => none
  | (k', v) :: rest, k => if k' = k then some v else lookupKey rest k

/-- Python `k in d` for a dict. -/
def hasKey {α : Type} (d : List (String × α)) (k : String) : Bool :=
  (lookupKey d k).isSome

/-- Python dict assignment `d[k] = v`: replaces the value in place when the
key is present (keeping its position), otherwise appends the new binding. -/
def setKey {α : Type} : List (String × α) → String → α → List (String × α)
  | [], k, v => [(k, v)]
  | (k', v') :: rest, k, v =>
      if k' = k then (k, v) :: rest else (k', v') :: setKey rest k v

/-- Python `d.update(other)`: assign every binding of `other` into `d`, in
iteration order. -/
def dictUpdate {α : Type} (d other : List (String × α)) : List (String × α) :=
  other.foldl (fun acc kv => setKey acc kv.1 kv.2) d

/-- Python `d.get(k)`: the stored value, or `None` when the key is absent. -/
def getOpt (d : List (String × Val)) (k : String) : Val :=
  (lookupKey d k).getD .null

/-- Python `d.get(k, default)`: returns `default` only when the key is
absent (a stored `None` is returned as such). -/
def getDefault (d : List (String × Val)) (k : String) (default : Val) : Val :=
  (lookupKey d k).getD default

/-- Python substring test `needle in hay`. -/
def strContainsSub (hay needle : String) : Bool :=
  (List.range (hay.toList.length + 1)).any fun i =>
    needle.toList.isPrefixOf (hay.toList.drop i)

/-- Python `k in x` for a string key `k` against an arbitrary value `x`:
dict key membership, substring test on strings, element membership on lists,
and a `TypeError` on non-iterable values. -/
def pyContains : Val → String → Except String Bool
  | .dict d, k => .ok (hasKey d k)
  | .str s, k => .ok (strContainsSub s k)
  | .list l, k => .ok (l.contains (.str k))
  | .null, _ => .error "TypeError: argument of type NoneType is not iterable"
  | .bool _, _ => .error "TypeError: argument of type bool is not iterable"
  | .int _, _ => .error "TypeError: argument of type int is not iterable"

/-- Python `x[k]` for a string key: dict lookup; strings and lists reject
string indices, everything else is not subscriptable. -/
def pyGetItem : Val → String → Except String Val
  | .dict d, k =>
      match lookupKey d k with
      | some v => .ok v
      | none => .error "KeyError"
  | .str _, _ => .error "TypeError: string indices must be integers"
  | .list _, _ => .error "TypeError: list indices must be integers"
  | .null, _ => .error "TypeError: NoneType is not subscriptable"
  | .bool _, _ => .error "TypeError: bool is not subscriptable"
  | .int _, _ => .error "TypeError: int is not subscriptable"

/-- Python `x[k] = v` for a string key: only dicts support it. -/
def pySetItem : Val → String → Val → Except String Val
  | .dict d, k, v => .ok (.dict (setKey d k v))
  | .str _, _, _ => .error "TypeError: str does not support item assignment"
  | .list _, _, _ => .error "TypeError: list indices must be integers"
  | .null, _, _ => .error "TypeError: NoneType does not support item assignment"
  | .bool _, _, _ => .error "TypeError: bool does not support item assignment"
  | .int _, _, _ => .error "TypeError: int does not support item assignment"

/-- Python truthiness. -/
def pyTruthy : Val → Bool
  | .null => false
  | .bool b => b
  | .int n => n != 0
  | .str s => s ≠ ""
  | .list l => !l.isEmpty
  | .dict d => !d.isEmpty

mutual

/-- Python `repr` (escaping inside strings is not modelled; the scripts only
format plain identifiers and booleans). -/
def pyRepr : Val → String
  | .null => "None"
  | .bool true => "True"
  | .bool false => "False"
  | .int n => toString n
  | .str s => "'" ++ s ++ "'"
  | .list l => "[" ++ pyReprList l ++ "]"
  | .dict d => "\x7b" ++ pyReprDict d ++ "\x7d"

/-- Comma-joined `repr` of list elements. -/
def pyReprList : List Val → String
  | [] => ""
  | [v] => pyRepr v
  | v :: rest => pyRepr v ++ ", " ++ pyReprList rest

/-- Comma-joined `repr` of dict entries. -/
def pyReprDict : List (String × Val) → String
  | [] => ""
  | [(k, v)] => "'" ++ k ++ "': " ++ pyRepr v
  | (k, v) :: rest => "'" ++ k ++ "': " ++ pyRepr v ++ ", " ++ pyReprDict rest

end

/-- Python `str`, as used by f-string interpolation. -/
def pyStr : Val → String
  | .str s => s
  | v => pyRepr v

/-- `RepoSyncManager._merge_configs` (scripts/repo_sync_manager.py:130-136):

    for key, value in source.items():
        if isinstance(value, dict) and key in target:
            self._merge_configs(target[key], value)
        elif value is not None:
            target[key] = value

The in-place mutation of `target` is modelled by returning the updated
value; dynamic type errors surface as `Except.error`.  Note the recursion
checks only `key in target`, not that `target[key]` is itself a dict. -/
def mergeConfigsSM : Val → List (String × Val) → Except String Val
  | t, [] => .ok t
  | t, (k, v) :: rest =>
    match v with
    | .dict sd =>
      (match pyContains t k with
      | .error e => .error e
      | .ok true =>
        match pyGetItem t k with
        | .error e => .error e
        | .ok tv =>
          match mergeConfigsSM tv sd with
          | .error e => .error e
          | .ok tv' =>
            match pySetItem t k tv' with
            | .error e => .error e
            | .ok t' => mergeConfigsSM t' rest
      | .ok false =>
        match pySetItem t k (.dict sd) with
        | .error e => .error e
        | .ok t' => mergeConfigsSM t' rest)
    | .null => mergeConfigsSM t rest
    | v' =>
      match pySetItem t k v' with
      | .error e => .error e
      | .ok t' => mergeConfigsSM t' rest
termination_by t s => sizeOf s

/-- `RepoIssueHandler._merge_configs` (.github/scripts/repo_issue_handler.py:201-210):

    for key, value in source.items():
        if value is None:
            continue
        elif isinstance(value, dict) and key in target and isinstance(target[key], dict):
            self._merge_configs(target[key], value)
        else:
            target[key] = value

Every call site passes dicts for both arguments and the recursion re-checks
that `target[key]` is a dict, so this version is total. -/
def mergeConfigsIH : List (String × Val) → List (String × Val) → List (String × Val)
  | t, [] => t
  | t, (k, v) :: rest =>
    match v with
    | .null => mergeConfigsIH t rest
    | .dict sd =>
      match lookupKey t k with
      | some (.dict td) => mergeConfigsIH (setKey t k (.dict (mergeConfigsIH td sd))) rest
      | _ => mergeConfigsIH (setKey t k (.dict sd)) rest
    | v' => mergeConfigsIH (setKey t k v') rest
termination_by t s => sizeOf s

/-- The merge rule exactly as the specification words it: for each key of
source, if the source value is a mapping and target has a mapping at that
key, recurse; if the source value is null, preserve target's existing
value; otherwise target's value at that key becomes the source value,
scalars and lists replaced wholesale. -/
def specMergeClaim : List (String × Val) → List (String × Val) → List (String × Val)
  | t, [] => t
  | t, (k, v) :: rest =>
    match v, lookupKey t k with
    | .dict sd, some (.dict td) =>
        specMergeClaim (setKey t k (.dict (specMergeClaim td sd))) rest
    | .null, _ => specMergeClaim t rest
    | v', _ => specMergeClaim (setKey t k v') rest
termination_by t s => sizeOf s

/-! ## Validator (`RepoIssueHandler._validate_config`) -/

/-- Character class `[a-zA-Z0-9_.-]` of the repository-name pattern. -/
def nameCharOk (c : Char) : Bool :=
  c.isAlphanum || c = '_' || c = '.' || c = '-'

/-- Python `re.match(r"^[a-zA-Z0-9_.-]+$", s) is not None`.  `re.match`
anchors at the start, and `$` also matches just before a single trailing
newline, so `"abc\n"` matches. -/
def reMatchName (s : String) : Bool :=
  let l := s.toList
  let core := if l.getLast? = some '\n' then l.dropLast else l
  !core.isEmpty && core.all nameCharOk

/-- Validation of the `repository` section: name required and well formed,
visibility required and one of the two accepted values.  Python raises a
`TypeError` when the section value does not support `in`/`[]` with string
keys or when a present name is not a string (`re.match` on a non-string). -/
def validateRepoSection (repoCfg : Val) : Except String (List String) := do
  let hasName ← pyContains repoCfg "name"
  let nameErrs ←
    if hasName then do
      let nv ← pyGetItem repoCfg "name"
      match nv with
      | .str s =>
          pure (if reMatchName s then [] else ["Invalid repository name format"])
      | _ => Except.error "TypeError: expected string or bytes-like object"
    else
      pure ["Repository name is required"]
  let hasVis ← pyContains repoCfg "visibility"
  let visErrs ←
    if hasVis then do
      let vv ← pyGetItem repoCfg "visibility"
      pure (if vv = .str "internal" ∨ vv = .str "private" then []
            else ["Visibility must be either 'internal' or 'private'"])
    else
      pure ["Repository visibility is required"]
  pure (nameErrs ++ visErrs)

/-- Validation of a `rulesets` / `custom_properties` section: must be a
list, every element a dictionary carrying a `name`. -/
def validateNamedList (v : Val) (listErr dictErr nameErr : String) : List String :=
  match v with
  | .list items =>
      items.foldr
        (fun it acc =>
          (match it with
           | .dict d => if hasKey d "name" then [] else [nameErr]
           | _ => [dictErr]) ++ acc)
        []
  | _ => [listErr]

/-- `RepoIssueHandler._validate_config`
(.github/scripts/repo_issue_handler.py:212-255).  Collects all rule
violations into one list and returns `(len(errors) == 0, errors)`; dynamic
type errors raised by the Python code surface as `Except.error`. -/
def validateConfig (config : List (String × Val)) : Except String (Bool × List String) := do
  let repoErrs ←
    match lookupKey config "repository" with
    | none => pure ["Missing repository configuration section"]
    | some repoCfg => validateRepoSection repoCfg
  let rsErrs :=
    if hasKey config "rulesets" then
      validateNamedList (getOpt config "rulesets")
        "Rulesets must be a list" "Each ruleset must be a dictionary"
        "Each ruleset must have a name"
    else []
  let cpErrs :=
    if hasKey config "custom_properties" then
      validateNamedList (getOpt config "custom_properties")
        "Custom properties must be a list" "Each custom property must be a dictionary"
        "Each custom property must have a name"
    else []
  let errors := repoErrs ++ rsErrs ++ cpErrs
  pure (errors.isEmpty, errors)

/-! ## Team membership sync (`scripts/team_manage_user_membership.py`) -/

/-- Python's quote character, `chr(39)`. -/
def quoteChar : Char := Char.ofNat 39

/-- `normalize_username` (team_manage_user_membership.py:17-19):
`username.lstrip("@").strip(quote)` — drop every leading `@`, then strip
quote characters from both ends. -/
def normalizeUsername (s : String) : String :=
  let l1 := s.toList.dropWhile (· == '@')
  let l2 := l1.dropWhile (· == quoteChar)
  let l3 := (l2.reverse.dropWhile (· == quoteChar)).reverse
  String.mk l3

structure TeamSyncResult where
  added : List String
  removed : List String
  alreadyMembers : List String
  notFound : List String
  finalMembers : List String
deriving DecidableEq, Repr

/-- Add loop of `sync_team_membership`: for each candidate,
`gh.get_user` succeeds only for existing accounts; a 404 lands the name in
`not_found`, a successful `add_membership` appends to the team and to
`added`. -/
def addMembersLoop (existing : List String) :
    List String → List String → List String × List String × List String
  | team, [] => (team, [], [])
  | team, m :: rest =>
    if existing.contains m then
      let team1 := if team.contains m then team else team ++ [m]
      let (teamF, added, notFound) := addMembersLoop existing team1 rest
      (teamF, m :: added, notFound)
    else
      let (teamF, added, notFound) := addMembersLoop existing team rest
      (teamF, added, m :: notFound)

/-- Remove loop of `sync_team_membership`: `gh.get_user` on a vanished
account raises, which is only logged — the member is then neither removed
nor reported. -/
def removeMembersLoop (existing : List String) :
    List String → List String → List String × List String
  | team, [] => (team, [])
  | team, m :: rest =>
    if existing.contains m then
      let (teamF, removed) := removeMembersLoop existing (team.filter (fun x => x != m)) rest
      (teamF, m :: removed)
    else
      removeMembersLoop existing team rest

/-- `desired_members = {normalize_username(member) for member in members}`.
Python iterates this set in unspecified order; the model fixes the
(membership-irrelevant) order via `dedup`. -/
def desiredMembers (members : List String) : List String :=
  (members.map normalizeUsername).dedup

/-- `sync_team_membership` (team_manage_user_membership.py:163-205).
`existing` is the set of GitHub accounts `gh.get_user` resolves; `current`
the team's current member logins; `members` the raw desired list from the
issue. -/
def syncTeamMembership (existing current members : List String) : TeamSyncResult :=
  let desired := desiredMembers members
  let toAdd := desired.filter (fun m => !current.contains m)
  let (team1, added, notFound) := addMembersLoop existing current toAdd
  let toRemove := current.filter (fun m => !desired.contains m)
  let (team2, removed) := removeMembersLoop existing team1 toRemove
  { added := added
    removed := removed
    alreadyMembers := current.filter (fun m => desired.contains m)
    notFound := notFound
    finalMembers := team2 }

/-! ## Live repository state and the GitHub API environment

`RepoState` gathers the attributes of a live repository that the sync code
reads (`getattr(repo, attr)`) and writes (`repo.edit`, `enable_*`,
ruleset calls).  `ApiEnv` fixes, per API operation, whether the remote call
raises; reconciliation claims about error handling quantify over it. -/

structure RulesetLive where
  name : Val
  target : Val
  enforcement : Val
  conditions : Val
  rules : Val
deriving DecidableEq, Repr

structure RepoState where
  attrs : List (String × Val)
  visibility : String
  rulesets : List RulesetLive
  vulnerabilityAlerts : Bool
  automatedSecurityFixes : Bool
  topics : Val
deriving DecidableEq, Repr

structure ApiEnv where
  editFails : Bool
  visibilityEditFails : Bool
  vulnerabilityAlertFails : Bool
  securityFixesFails : Bool
  rulesetEditFails : Bool
  rulesetCreateFails : Bool
  statusCheckFails : Bool
deriving DecidableEq, Repr

/-- Environment in which every GitHub API call succeeds. -/
def allSuccess : ApiEnv :=
  { editFails := false, visibilityEditFails := false, vulnerabilityAlertFails := false
    securityFixesFails := false, rulesetEditFails := false, rulesetCreateFails := false
    statusCheckFails := false }

instance {ε α : Type} [DecidableEq ε] [DecidableEq α] : DecidableEq (Except ε α)
  | .error a, .error b =>
      if h : a = b then isTrue (by rw [h]) else isFalse (by simp [h])
  | .ok a, .ok b =>
      if h : a = b then isTrue (by rw [h]) else isFalse (by simp [h])
  | .error _, .ok _ => isFalse (fun h => nomatch h)
  | .ok _, .error _ => isFalse (fun h => nomatch h)

/-- Python `getattr(repo, attr)`; unknown attributes raise. -/
def getattrRepo (R : RepoState) (a : String) : Except String Val :=
  match lookupKey R.attrs a with
  | some v => .ok v
  | none => .error ("AttributeError: " ++ a)

/-- The `settable_attrs` list of `RepoSyncManager._sync_repo_settings`
(scripts/repo_sync_manager.py:292-302). -/
def settableAttrs : List String :=
  ["has_issues", "has_projects", "has_wiki", "default_branch",
   "allow_squash_merge", "allow_merge_commit", "allow_rebase_merge",
   "allow_auto_merge", "delete_branch_on_merge"]

/-- Apply a staged `update_dict` to the attribute map (`repo.edit(**d)`). -/
def applyUpdate (m upd : List (String × Val)) : List (String × Val) :=
  upd.foldl (fun acc kv => setKey acc kv.1 kv.2) m

/-- Staging loop of `_sync_repo_settings`: for each recognized attribute,
`if attr in config and getattr(repo, attr) != config[attr]`, stage the new
value into `update_dict` and record the transition string. -/
def stageAttrs (am : List (String × Val)) (cfg : Val) :
    List String → Except String (List (String × Val) × List (String × String))
  | [] => .ok ([], [])
  | a :: rest => do
    let c ← pyContains cfg a
    if c then
      let v ← pyGetItem cfg a
      match lookupKey am a with
      | none => Except.error ("AttributeError: " ++ a)
      | some cur =>
        if cur ≠ v then
          let (upd, ch) ← stageAttrs am cfg rest
          pure ((a, v) :: upd, (a, pyStr cur ++ " → " ++ pyStr v) :: ch)
        else stageAttrs am cfg rest
    else stageAttrs am cfg rest

/-- `RepoSyncManager._sync_repo_settings`
(scripts/repo_sync_manager.py:289-313).  Returns the new state, the
ChangeSet entries, and the list of issued `repo.edit` calls (at most one,
batched). -/
def syncRepoSettings (env : ApiEnv) (R : RepoState) (cfg : Val) :
    Except String (RepoState × List (String × String) × List (List (String × Val))) := do
  let (upd, ch) ← stageAttrs R.attrs cfg settableAttrs
  if upd.isEmpty then
    pure (R, ch, [])
  else if env.editFails then
    Except.error "GithubException: repo.edit failed"
  else
    pure ({ R with attrs := applyUpdate R.attrs upd }, ch, [upd])

/-- `RepoSyncManager._apply_visibility_settings`
(scripts/repo_sync_manager.py:156-175).  The `config.get` runs before the
internal try block; the edit failure is caught and only logged. -/
def applyVisibilitySettings (env : ApiEnv) (R : RepoState) (cfg : Val) :
    Except String (RepoState × List (String × String)) := do
  let d ←
    match cfg with
    | .dict d => pure d
    | _ => Except.error "AttributeError: object has no attribute get"
  let visibility := getOpt d "visibility"
  if pyTruthy visibility &&
      [Val.str "public", Val.str "private", Val.str "internal"].contains visibility then
    match visibility with
    | .str s =>
      if R.visibility ≠ s then
        if env.visibilityEditFails then pure (R, [])
        else pure ({ R with visibility := s }, [("visibility", R.visibility ++ " → " ++ s)])
      else pure (R, [])
    | _ => pure (R, [])
  else pure (R, [])

/-- `RepoSyncManager._sync_security_settings`
(scripts/repo_sync_manager.py:315-327).  No try/except: an API failure of
either enable call propagates to the caller. -/
def syncSecuritySettings (env : ApiEnv) (R : RepoState) (cfg : Val) :
    Except String (RepoState × List (String × String)) := do
  let d ←
    match cfg with
    | .dict d => pure d
    | _ => Except.error "AttributeError: object has no attribute get"
  let (R1, ch1) ←
    if pyTruthy (getOpt d "enableVulnerabilityAlerts") then
      if env.vulnerabilityAlertFails then
        Except.error "GithubException: enable_vulnerability_alert failed"
      else
        pure ({ R with vulnerabilityAlerts := true },
              [("vulnerability_alerts", "enabled")])
    else pure (R, ([] : List (String × String)))
  if pyTruthy (getOpt d "enableAutomatedSecurityFixes") then
    if env.securityFixesFails then
      Except.error "GithubException: enable_automated_security_fixes failed"
    else
      pure ({ R1 with automatedSecurityFixes := true },
            ch1 ++ [("automated_security_fixes", "enabled")])
  else pure (R1, ch1)

/-- Desired ruleset parameters (`ruleset_params` of `_sync_rulesets`):
full replacement values with the documented defaults. -/
def mkRulesetParams (d : List (String × Val)) (name : Val) : RulesetLive :=
  { name := name
    target := getDefault d "target" (.str "branch")
    enforcement := getDefault d "enforcement" (.str "active")
    conditions := getDefault d "conditions" (.dict [])
    rules := getDefault d "rules" (.list []) }

/-- `existing_ruleset.edit(**params)`: replace the first live ruleset
carrying the given name. -/
def editFirstByName : List RulesetLive → Val → RulesetLive → List RulesetLive
  | [], _, _ => []
  | r :: rest, n, params =>
      if r.name = n then params :: rest else r :: editFirstByName rest n params

/-- Loop body of `_sync_rulesets`.  `stale` is the ruleset list captured by
`list(repo.get_rulesets())` before the loop (only names are consulted).
An exception anywhere in the loop is caught by the surrounding
`except`, which discards the accumulated entries and returns
`makeDict error <msg>`; state mutations made before the failure persist. -/
def syncRulesetsLoop (env : ApiEnv) (stale : List Val) :
    RepoState → List (String × String) → List Val → RepoState × List (String × String)
  | R, ch, [] => (R, ch)
  | R, ch, cfg :: rest =>
    match cfg with
    | .dict d =>
      let name := getOpt d "name"
      if pyTruthy name then
        let params := mkRulesetParams d name
        if stale.contains name then
          if env.rulesetEditFails then
            (R, [("error", "GithubException: ruleset edit failed")])
          else
            syncRulesetsLoop env stale
              { R with rulesets := editFirstByName R.rulesets name params }
              (setKey ch ("ruleset_" ++ pyStr name) "updated") rest
        else
          if env.rulesetCreateFails then
            (R, [("error", "GithubException: ruleset create failed")])
          else
            syncRulesetsLoop env stale
              { R with rulesets := R.rulesets ++ [params] }
              (setKey ch ("ruleset_" ++ pyStr name) "created") rest
      else syncRulesetsLoop env stale R ch rest
    | _ => (R, [("error", "AttributeError: object has no attribute get")])

/-- `RepoSyncManager._sync_rulesets` (scripts/repo_sync_manager.py:177-214).
Total: every exception is folded into an `error` ChangeSet entry.
Iterating a non-empty non-list produces elements without `.get`
(dict keys and string characters are strings), hence a caught
`AttributeError`; non-iterables raise a caught `TypeError`. -/
def syncRulesets (env : ApiEnv) (R : RepoState) (v : Val) :
    RepoState × List (String × String) :=
  match v with
  | .list cfgs => syncRulesetsLoop env (R.rulesets.map (·.name)) R [] cfgs
  | .dict d =>
      if d.isEmpty then (R, [])
      else (R, [("error", "AttributeError: object has no attribute get")])
  | .str s =>
      if s = "" then (R, [])
      else (R, [("error", "AttributeError: object has no attribute get")])
  | _ => (R, [("error", "TypeError: object is not iterable")])

/-- The list comprehension `[check["context"] for check in required_checks]`
of `_sync_status_checks` (it runs inside that method's try block). -/
def extractContexts : Val → Except String (List Val)
  | .list cs => cs.mapM (fun c => pyGetItem c "context")
  | .dict d => if d.isEmpty then .ok [] else .error "TypeError: string indices must be integers"
  | .str s => if s = "" then .ok [] else .error "TypeError: string indices must be integers"
  | _ => .error "TypeError: object is not iterable"

/-- Python `", ".join(contexts)`: every element must be a string. -/
def joinContexts : List Val → Except String String
  | [] => .ok ""
  | [.str s] => .ok s
  | .str s :: c :: rest => do
      let r ← joinContexts (c :: rest)
      pure (s ++ ", " ++ r)
  | _ => .error "TypeError: sequence item is not a string"

/-- `RepoSyncManager._sync_status_checks`
(scripts/repo_sync_manager.py:216-253).  Branch-protection reads and the
protection update are folded into `env.statusCheckFails`; the protection
object itself is not part of `RepoState` because no settled claim inspects
it.  Every exception becomes an `error:` ChangeSet entry. -/
def syncStatusChecks (env : ApiEnv) (branchName : Val) (checks : Val) :
    List (String × String) :=
  let key := "status_checks_" ++ pyStr branchName
  if env.statusCheckFails then
    [(key, "error: GithubException: branch protection update failed")]
  else
    match extractContexts checks with
    | .error e => [(key, "error: " ++ e)]
    | .ok ctxs =>
      match joinContexts ctxs with
      | .error e => [(key, "error: " ++ e)]
      | .ok s => [(key, "updated: " ++ s)]

/-- The `status_checks` loop of `_sync_repository_with_config`
(scripts/repo_sync_manager.py:276-281).  The iteration and the
`branch_config.get` calls run outside `_sync_status_checks`, so their
failures propagate. -/
def statusChecksAll (env : ApiEnv) : Val → Except String (List (String × String))
  | .list bcs => statusChecksGo env bcs
  | .dict d =>
      if d.isEmpty then .ok []
      else .error "AttributeError: object has no attribute get"
  | .str s =>
      if s = "" then .ok []
      else .error "AttributeError: object has no attribute get"
  | _ => .error "TypeError: object is not iterable"
where
  statusChecksGo (env : ApiEnv) : List Val → Except String (List (String × String))
    | [] => .ok []
    | bc :: rest => do
      let d ←
        match bc with
        | .dict d => pure d
        | _ => Except.error "AttributeError: object has no attribute get"
      let branchName := getOpt d "branch"
      let checks := getDefault d "checks" (.list [])
      let here :=
        if pyTruthy branchName && pyTruthy checks then
          syncStatusChecks env branchName checks
        else []
      let there ← statusChecksGo env rest
      pure (here ++ there)

/-- `RepoSyncManager._sync_repository_with_config`
(scripts/repo_sync_manager.py:255-287).  Its own `except` clause re-raises,
so any exception escaping a sub-step aborts the remaining sub-steps and the
accumulated ChangeSet is lost to the caller. -/
def syncRepositoryWithConfig (env : ApiEnv) (R : RepoState) (config : Val) :
    Except String (RepoState × List (String × String)) := do
  let cd ←
    match config with
    | .dict d => pure d
    | _ => Except.error "AttributeError: object has no attribute get"
  let repoCfg := getDefault cd "repository" (.dict [])
  let (R1, ch1, _calls) ← syncRepoSettings env R repoCfg
  let (R2, chV) ← applyVisibilitySettings env R1 repoCfg
  let changes1 := dictUpdate ch1 chV
  let hasSec ← pyContains repoCfg "security"
  let (R3, changes2) ←
    if hasSec then do
      let secv ← pyGetItem repoCfg "security"
      let (R3, chS) ← syncSecuritySettings env R2 secv
      pure (R3, dictUpdate changes1 chS)
    else pure (R2, changes1)
  let hasRs ← pyContains repoCfg "rulesets"
  let (R4, changes3) ←
    if hasRs then do
      let rsv ← pyGetItem repoCfg "rulesets"
      let (R4, chR) := syncRulesets env R3 rsv
      pure (R4, dictUpdate changes2 chR)
    else pure (R3, changes2)
  let hasSc ← pyContains repoCfg "status_checks"
  if hasSc then do
    let scv ← pyGetItem repoCfg "status_checks"
    let chSc ← statusChecksAll env scv
    pure (R4, dictUpdate changes3 chSc)
  else pure (R4, changes3)

/-! ## Batch sync (`sync_all_repositories`, `_get_repository_config`) -/

structure OrgRepo where
  name : String
  state : RepoState
  configFile : Except String Val
deriving DecidableEq, Repr

/-- `RepoSyncManager._get_repository_config`
(scripts/repo_sync_manager.py:121-128): any failure to fetch or parse
`repository.yml` is swallowed and the method returns
`self.default_config.copy()`. -/
def getRepositoryConfig (defaultConfig : List (String × Val))
    (fetch : Except String Val) : Val :=
  match fetch with
  | .ok v => v
  | .error _ => .dict defaultConfig

inductive SyncResult where
  | changes : List (String × String) → SyncResult
  | errorMsg : String → SyncResult
deriving DecidableEq, Repr

/-- `RepoSyncManager.sync_all_repositories`
(scripts/repo_sync_manager.py:88-110): per-repository try/except; a failed
repository contributes `"Error: <e>"` and the loop continues; a repository
with an empty ChangeSet contributes nothing. -/
def syncAllRepositories (env : ApiEnv) (defaultConfig : List (String × Val)) :
    List OrgRepo → List (String × SyncResult)
  | [] => []
  | r :: rest =>
    let cfg := getRepositoryConfig defaultConfig r.configFile
    (match syncRepositoryWithConfig env r.state cfg with
     | .ok (_, ch) =>
         if ch.isEmpty then []
         else [(r.name, SyncResult.changes ch)]
     | .error e => [(r.name, SyncResult.errorMsg ("Error: " ++ e))]) ++
    syncAllRepositories env defaultConfig rest

/-! ## `RepositoryUpdater._update_repository_settings`
(scripts/repository_manage.py:172-212) -/

/-- The attributes passed to the single `repo.edit` call of
`RepositoryUpdater._update_repository_settings` (lines 176-187). -/
def updaterAttrs : List String :=
  settableAttrs ++ ["allow_update_branch"]

/-- The keyword arguments of that `repo.edit` call:
`config.get(attr, getattr(repo, attr))` for each attribute (the `getattr`
default is evaluated eagerly, so a missing live attribute raises). -/
def updaterParamsLoop (R : RepoState) (rc : List (String × Val)) :
    List String → Except String (List (String × Val))
  | [] => .ok []
  | a :: rest => do
    let cur ← getattrRepo R a
    let tail ← updaterParamsLoop R rc rest
    pure ((a, getDefault rc a cur) :: tail)

/-- `RepositoryUpdater._update_repository_settings`.  One `repo.edit` call
with `config.get(attr, getattr(repo, attr))` for all ten attributes; the
two security enables each sit in their own try/except that only logs a
warning; topics are replaced wholesale when present.  The outer `except`
re-raises, so an `edit` failure propagates.  Returns the new state and the
logged warnings. -/
def updateRepositorySettings (env : ApiEnv) (R : RepoState) (cfg : Val) :
    Except String (RepoState × List String) := do
  let d ←
    match cfg with
    | .dict d => pure d
    | _ => Except.error "AttributeError: object has no attribute get"
  let params ← updaterParamsLoop R d updaterAttrs
  if env.editFails then
    Except.error "GithubException: repo.edit failed"
  else
    let R1 := { R with attrs := applyUpdate R.attrs params }
    let sec ←
      match getDefault d "security" (.dict []) with
      | .dict sd => pure sd
      | _ => Except.error "AttributeError: object has no attribute get"
    let (R2, ws1) :=
      if pyTruthy (getDefault sec "enableVulnerabilityAlerts" (.bool false)) then
        if env.vulnerabilityAlertFails then
          (R1, ["Could not enable vulnerability alerts: GithubException"])
        else ({ R1 with vulnerabilityAlerts := true }, [])
      else (R1, [])
    let (R3, ws2) :=
      if pyTruthy (getDefault sec "enableAutomatedSecurityFixes" (.bool false)) then
        if env.securityFixesFails then
          (R2, ["Could not enable automated security fixes: GithubException"])
        else ({ R2 with automatedSecurityFixes := true }, [])
      else (R2, [])
    let topics := getDefault d "topics" (.list [])
    let R4 := if pyTruthy topics then { R3 with topics := topics } else R3
    pure (R4, ws1 ++ ws2)

/-! ## `RepoSyncManager.create_repository`: effect of the shallow copy on
the stored default configuration -/

/-- Value of `self.default_config` after `create_repository` runs

    merged_config = self.default_config.copy()
    self._merge_configs(merged_config, config)

(scripts/repo_sync_manager.py:34-35).  `dict.copy()` is shallow: the copy
shares every nested value with the default config, so the recursive-merge
branch of `_merge_configs` mutates the default config's nested dicts in
place, while top-level assignments touch only the copy.  On a merge
exception `create_repository` re-raises (partial nested mutations are not
tracked here; no settled claim reads them). -/
def defaultAfterMerge : List (String × Val) → List (String × Val) →
    Except String (List (String × Val))
  | D, [] => .ok D
  | D, (k, v) :: rest =>
    match v with
    | .dict sd =>
      match lookupKey D k with
      | some dv =>
        match mergeConfigsSM dv sd with
        | .error e => .error e
        | .ok dv' => defaultAfterMerge (setKey D k dv') rest
      | none => defaultAfterMerge D rest
    | _ => defaultAfterMerge D rest
termination_by D s => sizeOf s

/-! ## Specification-side descriptions (used to state refinement claims) -/

/-- Attributes staged for the batched edit, as the specification words it:
every recognized attribute present in the desired config whose value
differs from the live value. -/
def specStagedAttrs (am rc : List (String × Val)) (attrs : List String) :
    List (String × Val) :=
  attrs.filterMap fun a =>
    match lookupKey rc a, lookupKey am a with
    | some v, some cur => if cur ≠ v then some (a, v) else none
    | _, _ => none

/-- ChangeSet entries of scalar reconciliation, as the specification words
it: `attr: "<old> → <new>"` for every differing recognized attribute. -/
def specScalarChanges (am rc : List (String × Val)) (attrs : List String) :
    List (String × String) :=
  attrs.filterMap fun a =>
    match lookupKey rc a, lookupKey am a with
    | some v, some cur =>
        if cur ≠ v then some (a, pyStr cur ++ " → " ++ pyStr v) else none
    | _, _ => none

/-- Effect of ruleset reconciliation on one live ruleset, as the
specification words it: the first desired ruleset with the same name
replaces its parameters wholesale; otherwise it is left untouched. -/
def specEditedRuleset (cfgs : List (List (String × Val))) (r : RulesetLive) :
    RulesetLive :=
  match cfgs.find? (fun d => getOpt d "name" == r.name) with
  | some d => mkRulesetParams d r.name
  | none => r

/-- Rulesets created by ruleset reconciliation: desired rulesets whose name
matches no live ruleset. -/
def specCreatedRulesets (stale : List Val) (cfgs : List (List (String × Val))) :
    List RulesetLive :=
  (cfgs.filter (fun d => !stale.contains (getOpt d "name"))).map
    (fun d => mkRulesetParams d (getOpt d "name"))

/-- ChangeSet entries of ruleset reconciliation: `updated` for names found
live, `created` otherwise. -/
def specRulesetChanges (stale : List Val) (cfgs : List (List (String × Val))) :
    List (String × String) :=
  cfgs.map (fun d =>
    ("ruleset_" ++ pyStr (getOpt d "name"),
     if stale.contains (getOpt d "name") then "updated" else "created"))

/-- Repository-section validation rules as the specification lists them:
name required and matching the pattern, visibility required and one of the
accepted values; errors collected in order. -/
def specRepoSectionErrors (rd : List (String × Val)) : List String :=
  (match lookupKey rd "name" with
   | none => ["Repository name is required"]
   | some (.str s) => if reMatchName s then [] else ["Invalid repository name format"]
   | some _ => ["Invalid repository name format"]) ++
  (match lookupKey rd "visibility" with
   | none => ["Repository visibility is required"]
   | some v =>
       if v = .str "internal" ∨ v = .str "private" then []
       else ["Visibility must be either 'internal' or 'private'"])

/-- Validation errors as the specification lists the rules (spec section
4.3); stated over mapping-shaped sections, which is the domain on which the
amended totality claim is proved (the `some _ => []` arm is outside that
domain). -/
def specValidationErrors (config : List (String × Val)) : List String :=
  (match lookupKey config "repository" with
   | none => ["Missing repository configuration section"]
   | some (.dict rd) => specRepoSectionErrors rd
   | some _ => []) ++
  (match lookupKey config "rulesets" with
   | none => []
   | some v =>
       validateNamedList v "Rulesets must be a list"
         "Each ruleset must be a dictionary" "Each ruleset must have a name") ++
  (match lookupKey config "custom_properties" with
   | none => []
   | some v =>
       validateNamedList v "Custom properties must be a list"
         "Each custom property must be a dictionary" "Each custom property must have a name")

/-- Expected parameters of the one `repo.edit` call of
`RepositoryUpdater._update_repository_settings`: every recognized
attribute, taking the desired value when present and the live value
otherwise. -/
def updaterEditParams (am rc : List (String × Val)) : List (String × Val) :=
  updaterAttrs.map (fun a => (a, getDefault rc a ((lookupKey am a).getD .null)))

/-! ## Concrete fixtures used by counterexamples and witnesses -/

/-- Attribute map of a typical live repository (every attribute the scripts
read is present, as on a real PyGithub `Repository`). -/
def stdAttrs : List (String × Val) :=
  [("has_issues", .bool true), ("has_projects", .bool true),
   ("has_wiki", .bool true), ("default_branch", .str "main"),
   ("allow_squash_merge", .bool true), ("allow_merge_commit", .bool true),
   ("allow_rebase_merge", .bool true), ("allow_auto_merge", .bool false),
   ("delete_branch_on_merge", .bool true), ("allow_update_branch", .bool true),
   ("archived", .bool false)]

/-- A typical live repository. -/
def exampleRepo : RepoState :=
  { attrs := stdAttrs, visibility := "private", rulesets := []
    vulnerabilityAlerts := false, automatedSecurityFixes := false
    topics := .list [] }

/-- The example repository with a live ruleset named `r1`. -/
def exampleRepoR1 : RepoState :=
  { exampleRepo with
    rulesets := [{ name := .str "r1", target := .str "branch"
                   enforcement := .str "active", conditions := .dict []
                   rules := .list [] }] }

/-- Desired config turning the wiki off (the specification's scenario). -/
def c2Cfg : List (String × Val) :=
  [("repository", .dict [("has_wiki", .bool false)])]

/-- The example repository after the first reconciliation run of `c2Cfg`. -/
def c2Repo1 : RepoState :=
  { exampleRepo with
    attrs := applyUpdate exampleRepo.attrs [("has_wiki", .bool false)] }

/-- Desired config that only enables vulnerability alerts. -/
def c2SecCfg : Val :=
  .dict [("repository",
          .dict [("security", .dict [("enableVulnerabilityAlerts", .bool true)])])]

/-- The example repository after vulnerability alerts were enabled. -/
def c2SecRepo : RepoState := { exampleRepo with vulnerabilityAlerts := true }

/-- Desired config with a differing scalar and a rulesets section. -/
def c5Cfg : Val :=
  .dict [("repository",
          .dict [("has_wiki", .bool false),
                 ("rulesets", .list [.dict [("name", .str "r1")]])])]

/-- Desired config with a ruleset named `r1` and a status check on `main`. -/
def c5RsScCfg : Val :=
  .dict [("repository",
          .dict [("rulesets", .list [.dict [("name", .str "r1")]]),
                 ("status_checks",
                  .list [.dict [("branch", .str "main"),
                                ("checks", .list [.dict [("context", .str "ci")]])]])])]

/-- Desired config with a differing scalar and vulnerability alerts on. -/
def c8Cfg : Val :=
  .dict [("repository",
          .dict [("has_wiki", .bool false),
                 ("security",
                  .dict [("enableVulnerabilityAlerts", .bool true)])])]

/-- Two desired rulesets: `r1` (matching a live ruleset) and a new `r2`. -/
def c9Cfgs : List (List (String × Val)) :=
  [[("name", .str "r1"), ("enforcement", .str "evaluate")],
   [("name", .str "r2")]]

/-- Domain on which `_validate_config` is total: the `repository` value,
when present, is a mapping whose `name`, when present, is a string.
(Outside it the Python code raises, see the C7 counterexample.) -/
def c7DomainB (config : List (String × Val)) : Bool :=
  match lookupKey config "repository" with
  | none => true
  | some (.dict rd) =>
      match lookupKey rd "name" with
      | none => true
      | some (.str _) => true
      | some _ => false
  | some _ => false

/-! ## Dictionary lemmas -/

theorem lookupKey_setKey_self {α : Type} (d : List (String × α)) (k : String) (v : α) :
    lookupKey (setKey d k v) k = some v := by
  induction d with
  | nil => simp [setKey, lookupKey]
  | cons hd tl ih =>
    obtain ⟨k', v'⟩ := hd
    by_cases h : k' = k <;> simp [setKey, lookupKey, h, ih]

theorem lookupKey_setKey_ne {α : Type} (d : List (String × α)) {k k' : String}
    (h : k' ≠ k) (v : α) : lookupKey (setKey d k v) k' = lookupKey d k' := by
  induction d with
  | nil => simp [setKey, lookupKey, Ne.symm h]
  | cons hd tl ih =>
    obtain ⟨k₁, v₁⟩ := hd
    by_cases h₁ : k₁ = k <;> simp [setKey, lookupKey, h₁, Ne.symm h, ih]

theorem lookupKey_eq_none_of_not_mem {α : Type} {d : List (String × α)} {k : String}
    (h : k ∉ d.map Prod.fst) : lookupKey d k = none := by
  induction d with
  | nil => rfl
  | cons hd tl ih =>
    obtain ⟨k', v'⟩ := hd
    have hne : k' ≠ k := by rintro rfl; exact h (by simp)
    have htl : k ∉ tl.map Prod.fst := fun hm => h (by simp [hm])
    simp [lookupKey, hne, ih htl]

theorem applyUpdate_nil (m : List (String × Val)) : applyUpdate m [] = m := rfl

theorem applyUpdate_cons (m : List (String × Val)) (a : String) (b : Val)
    (l : List (String × Val)) :
    applyUpdate m ((a, b) :: l) = applyUpdate (setKey m a b) l := rfl

theorem lookupKey_applyUpdate_not_mem {m upd : List (String × Val)} {k : String}
    (h : k ∉ upd.map Prod.fst) :
    lookupKey (applyUpdate m upd) k = lookupKey m k := by
  induction upd generalizing m with
  | nil => rfl
  | cons hd tl ih =>
    obtain ⟨a, b⟩ := hd
    have hne : a ≠ k := by rintro rfl; exact h (by simp)
    have htl : k ∉ tl.map Prod.fst := fun hm => h (by simp [hm])
    rw [applyUpdate_cons, ih htl, lookupKey_setKey_ne _ (Ne.symm hne) _]

theorem lookupKey_applyUpdate {m upd : List (String × Val)} {k : String}
    (hnd : (upd.map Prod.fst).Nodup) :
    lookupKey (applyUpdate m upd) k = (lookupKey upd k).or (lookupKey m k) := by
  induction upd generalizing m with
  | nil => simp [applyUpdate_nil, lookupKey]
  | cons hd tl ih =>
    obtain ⟨a, b⟩ := hd
    simp at hnd
    rw [applyUpdate_cons, ih hnd.2]
    by_cases h : a = k
    · subst h
      rw [lookupKey_eq_none_of_not_mem (by simpa using hnd.1)]
      simp [lookupKey, lookupKey_setKey_self]
    · simp [lookupKey, h, lookupKey_setKey_ne _ (Ne.symm h)]

/-! ## Claim C1 -/

/-- Claim C1 (amended): the stated merge rule — recurse when source and
target both hold a mapping at the key, skip null source values, otherwise
overwrite wholesale — is exactly the behaviour of
`RepoIssueHandler._merge_configs`; the `RepoSyncManager` variant deviates
on mappings merged onto non-mappings (see the counterexample). -/
theorem claim_C1_amended :
    ∀ t s : List (String × Val), mergeConfigsIH t s = specMergeClaim t s := by
  intro t s
  induction t, s using mergeConfigsIH.induct with
  | _ => simp_all [mergeConfigsIH, specMergeClaim]

/-- Claim C1 (counterexample): `RepoSyncManager._merge_configs` recurses
whenever the key is merely present in target, so merging the mapping
`makeDict a 1` onto the scalar `5` stored under the same key raises a
`TypeError` instead of overwriting the scalar as the claim requires. -/
theorem claim_C1_counterexample :
    mergeConfigsSM (.dict [("k", .int 5)]) [("k", .dict [("a", .int 1)])] =
      .error "TypeError: int does not support item assignment" ∧
    specMergeClaim [("k", .int 5)] [("k", .dict [("a", .int 1)])] =
      [("k", .dict [("a", .int 1)])] ∧
    mergeConfigsSM (.dict [("k", .int 5)]) [("k", .dict [("a", .int 1)])] ≠
      .ok (.dict (specMergeClaim [("k", .int 5)] [("k", .dict [("a", .int 1)])])) := by
  refine ⟨?_, ?_, ?_⟩ <;>
    simp [mergeConfigsSM, specMergeClaim, pyContains, pyGetItem, pySetItem,
      hasKey, lookupKey, setKey]

/-! ## Claim C6 -/

/-- Claim C6 (code bug): `create_repository` copies the default config with
a shallow `dict.copy()` before merging, so the recursive merge mutates the
default config's nested mappings in place.  At the failing input the loaded
default `repository: makeDict has_wiki True` ends up with `has_wiki: False`
after a user config overrides the nested key — the stored default config no
longer equals its value as loaded. -/
theorem claim_C6_bug :
    defaultAfterMerge [("repository", .dict [("has_wiki", .bool true)])]
        [("repository", .dict [("has_wiki", .bool false)])] =
      .ok [("repository", .dict [("has_wiki", .bool false)])] ∧
    defaultAfterMerge [("repository", .dict [("has_wiki", .bool true)])]
        [("repository", .dict [("has_wiki", .bool false)])] ≠
      .ok [("repository", .dict [("has_wiki", .bool true)])] := by
  constructor <;>
    simp [defaultAfterMerge, mergeConfigsSM, pyContains, pyGetItem, pySetItem,
      hasKey, lookupKey, setKey]

/-! ## Claim C10 -/

/-- Claim C10: for a repository whose `repository.yml` fetch fails,
`_get_repository_config` swallows the exception and returns a copy of the
loaded default configuration, and the batch sync therefore treats that
repository exactly as if its config file had contained the defaults —
silently reconciling it against them instead of skipping it or recording an
error. -/
theorem claim_C10 (env : ApiEnv) (defaultConfig : List (String × Val))
    (r : OrgRepo) (rest : List OrgRepo) (e : String)
    (h : r.configFile = .error e) :
    getRepositoryConfig defaultConfig r.configFile = .dict defaultConfig ∧
    syncAllRepositories env defaultConfig (r :: rest) =
      syncAllRepositories env defaultConfig
        ({ r with configFile := .ok (.dict defaultConfig) } :: rest) := by
  constructor
  · rw [h]; rfl
  · simp only [syncAllRepositories, getRepositoryConfig, h]

/-- Claim C10 witness: a concrete unreadable-config repository syncs
exactly as if its file held the defaults (here: empty changes, no entry). -/
theorem claim_C10_witness :
    getRepositoryConfig [("repository", .dict [])]
        (Except.error "404 Not Found") = .dict [("repository", .dict [])] ∧
    syncAllRepositories allSuccess [("repository", .dict [])]
        [{ name := "svc-a", state := exampleRepo
           configFile := Except.error "404 Not Found" }] =
      syncAllRepositories allSuccess [("repository", .dict [])]
        [{ name := "svc-a", state := exampleRepo
           configFile := Except.ok (.dict [("repository", .dict [])]) }] :=
  claim_C10 allSuccess [("repository", .dict [])]
    { name := "svc-a", state := exampleRepo
      configFile := Except.error "404 Not Found" } [] "404 Not Found" rfl

/-! ## Claim C7 -/

/-- Claim C7 (counterexample): `_validate_config` is not total on mapping
inputs — when the `repository` key holds the integer `0`, the membership
test `"name" not in repo_config` raises a `TypeError` instead of returning
a boolean and an error list. -/
theorem claim_C7_counterexample :
    validateConfig [("repository", .int 0)] =
      .error "TypeError: argument of type int is not iterable" := by
  decide

theorem validateRepoSection_spec (rd : List (String × Val))
    (hdom : (match lookupKey rd "name" with
             | none => true
             | some (.str _) => true
             | some _ => false) = true) :
    validateRepoSection (.dict rd) = .ok (specRepoSectionErrors rd) := by
  unfold validateRepoSection specRepoSectionErrors
  rcases hname : lookupKey rd "name" with _ | nv
  · rcases hvis : lookupKey rd "visibility" with _ | vv <;>
      simp [pyContains, pyGetItem, hasKey, hname, hvis,
        Bind.bind, Except.bind, Pure.pure, Except.pure]
  · rcases nv with _ | b | n | s | l | d <;> simp [hname] at hdom ⊢ <;>
    rcases hvis : lookupKey rd "visibility" with _ | vv <;>
      simp [pyContains, pyGetItem, hasKey, hname, hvis,
        Bind.bind, Except.bind, Pure.pure, Except.pure]

/-- Claim C7 (amended): on every mapping whose `repository` value, when
present, is itself a mapping with a string (or absent) `name`,
`_validate_config` returns, without raising, the boolean
`len(errors) == 0` together with the list of all applicable rule
violations, exactly as the specification enumerates them. -/
theorem claim_C7_amended (config : List (String × Val))
    (hdom : c7DomainB config = true) :
    validateConfig config =
      .ok ((specValidationErrors config).isEmpty, specValidationErrors config) := by
  unfold c7DomainB at hdom
  unfold validateConfig specValidationErrors
  rcases hrs : lookupKey config "rulesets" with _ | rsv <;>
    rcases hcp : lookupKey config "custom_properties" with _ | cpv <;>
    rcases hrepo : lookupKey config "repository" with _ | rv <;>
    simp [hrepo, hasKey, hrs, hcp, getOpt,
      Bind.bind, Except.bind, Pure.pure, Except.pure] <;>
    rcases rv with _ | b | n | s | l | rd <;> simp [hrepo] at hdom ⊢ <;>
    simp [validateRepoSection_spec rd hdom,
      Bind.bind, Except.bind, Pure.pure, Except.pure]

/-- Claim C7 witness: the amended totality theorem applied to the empty
mapping, which validates to three collected errors and `False`. -/
theorem claim_C7_witness :
    c7DomainB [] = true ∧
    validateConfig [] =
      .ok ((specValidationErrors []).isEmpty, specValidationErrors []) ∧
    specValidationErrors [] = ["Missing repository configuration section"] :=
  ⟨rfl, claim_C7_amended [] rfl, rfl⟩

/-! ## Scalar settings: staging, batching, idempotence -/

theorem specStagedAttrs_nil (am rc : List (String × Val)) :
    specStagedAttrs am rc [] = [] := rfl

theorem specScalarChanges_nil (am rc : List (String × Val)) :
    specScalarChanges am rc [] = [] := rfl

theorem specStagedAttrs_cons (am rc : List (String × Val)) (a : String)
    (rest : List String) :
    specStagedAttrs am rc (a :: rest) =
      (match lookupKey rc a, lookupKey am a with
       | some v, some cur => if cur ≠ v then [(a, v)] else []
       | _, _ => []) ++ specStagedAttrs am rc rest := by
  unfold specStagedAttrs
  rcases hrc : lookupKey rc a with _ | v <;>
    rcases hcur : lookupKey am a with _ | cur <;>
    simp [List.filterMap_cons, hrc, hcur]
  by_cases hne : cur = v <;> simp [hne]

theorem specScalarChanges_cons (am rc : List (String × Val)) (a : String)
    (rest : List String) :
    specScalarChanges am rc (a :: rest) =
      (match lookupKey rc a, lookupKey am a with
       | some v, some cur =>
           if cur ≠ v then [(a, pyStr cur ++ " → " ++ pyStr v)] else []
       | _, _ => []) ++ specScalarChanges am rc rest := by
  unfold specScalarChanges
  rcases hrc : lookupKey rc a with _ | v <;>
    rcases hcur : lookupKey am a with _ | cur <;>
    simp [List.filterMap_cons, hrc, hcur]
  by_cases hne : cur = v <;> simp [hne]

theorem stageAttrs_spec (attrs : List String) (am rc : List (String × Val))
    (h : ∀ a ∈ attrs, (lookupKey am a).isSome) :
    stageAttrs am (.dict rc) attrs =
      .ok (specStagedAttrs am rc attrs, specScalarChanges am rc attrs) := by
  induction attrs with
  | nil => rfl
  | cons a rest ih =>
    have ha : (lookupKey am a).isSome := h a (List.mem_cons_self a rest)
    have hih := ih (fun b hb => h b (List.mem_cons_of_mem a hb))
    rw [specStagedAttrs_cons, specScalarChanges_cons]
    rcases hcur : lookupKey am a with _ | cur
    · rw [hcur] at ha; simp at ha
    rcases hrc : lookupKey rc a with _ | v
    · simp [stageAttrs, pyContains, hasKey, hrc, hcur, hih,
        Bind.bind, Except.bind]
    · by_cases hne : cur = v <;>
        simp [stageAttrs, pyContains, pyGetItem, hasKey, hrc, hcur, hne, hih,
          Bind.bind, Except.bind, Pure.pure, Except.pure]

theorem syncRepoSettings_spec (env : ApiEnv) (R : RepoState)
    (rc : List (String × Val)) (henv : env.editFails = false)
    (hattrs : ∀ a ∈ settableAttrs, (lookupKey R.attrs a).isSome) :
    syncRepoSettings env R (.dict rc) =
      .ok ({ R with attrs :=
               applyUpdate R.attrs (specStagedAttrs R.attrs rc settableAttrs) },
           specScalarChanges R.attrs rc settableAttrs,
           if specStagedAttrs R.attrs rc settableAttrs = [] then []
           else [specStagedAttrs R.attrs rc settableAttrs]) := by
  unfold syncRepoSettings
  rw [stageAttrs_spec settableAttrs R.attrs rc hattrs]
  by_cases hnil : specStagedAttrs R.attrs rc settableAttrs = []
  · simp [hnil, Bind.bind, Except.bind, Pure.pure, Except.pure, applyUpdate_nil]
  · simp [hnil, List.isEmpty_iff, henv,
      Bind.bind, Except.bind, Pure.pure, Except.pure]

theorem specStagedAttrs_keys_sublist (am rc : List (String × Val))
    (attrs : List String) :
    ((specStagedAttrs am rc attrs).map Prod.fst).Sublist attrs := by
  induction attrs with
  | nil => simp [specStagedAttrs_nil]
  | cons a rest ih =>
    rw [specStagedAttrs_cons]
    rcases lookupKey rc a with _ | v <;> rcases lookupKey am a with _ | cur <;>
      simp
    · exact ih.cons a
    · exact ih.cons a
    · exact ih.cons a
    · by_cases hne : cur = v <;> simp [hne]
      · exact ih.cons a
      · exact ih

theorem lookupKey_specStagedAttrs (am rc : List (String × Val))
    (attrs : List String) (hnd : attrs.Nodup) (a : String) (ha : a ∈ attrs) :
    lookupKey (specStagedAttrs am rc attrs) a =
      match lookupKey rc a, lookupKey am a with
      | some v, some cur => if cur ≠ v then some v else none
      | _, _ => none := by
  induction attrs with
  | nil => simp at ha
  | cons b rest ih =>
    have hnd' := hnd.of_cons
    rw [specStagedAttrs_cons]
    rcases List.mem_cons.mp ha with rfl | hmem
    · have hnotmem : a ∉ rest := (List.nodup_cons.mp hnd).1
      have hkeys : lookupKey (specStagedAttrs am rc rest) a = none :=
        lookupKey_eq_none_of_not_mem (fun hx =>
          hnotmem ((specStagedAttrs_keys_sublist am rc rest).mem hx))
      rcases hrc : lookupKey rc a with _ | v <;>
        rcases hcur : lookupKey am a with _ | cur <;>
        simp [hrc, hcur, hkeys]
      by_cases hne : cur = v <;> simp [hne, lookupKey, hkeys]
    · have hbne : b ≠ a := by
        rintro rfl; exact (List.nodup_cons.mp hnd).1 hmem
      have hih := ih hnd' hmem
      rcases hrc : lookupKey rc b with _ | v <;>
        rcases hcur : lookupKey am b with _ | cur <;>
        simp [hrc, hcur, hih]
      by_cases hne : cur = v <;> simp [hne, lookupKey, hbne, hih]

theorem lookupKey_after_stage (am rc : List (String × Val)) (attrs : List String)
    (hnd : attrs.Nodup) (a : String) (ha : a ∈ attrs) :
    lookupKey (applyUpdate am (specStagedAttrs am rc attrs)) a =
      match lookupKey rc a, lookupKey am a with
      | some v, some _ => some v
      | _, _ => lookupKey am a := by
  have hkeysnd : ((specStagedAttrs am rc attrs).map Prod.fst).Nodup :=
    hnd.sublist (specStagedAttrs_keys_sublist am rc attrs)
  rw [lookupKey_applyUpdate hkeysnd,
    lookupKey_specStagedAttrs am rc attrs hnd a ha]
  rcases hrc : lookupKey rc a with _ | v <;>
    rcases hcur : lookupKey am a with _ | cur <;> simp
  by_cases hne : cur = v <;> simp [hne]

theorem specStagedAttrs_after (am rc : List (String × Val)) (attrs : List String)
    (hnd : attrs.Nodup) :
    specStagedAttrs (applyUpdate am (specStagedAttrs am rc attrs)) rc attrs = [] ∧
    specScalarChanges (applyUpdate am (specStagedAttrs am rc attrs)) rc attrs = [] := by
  constructor <;>
  · apply List.filterMap_eq_nil.mpr
    intro a ha
    rw [lookupKey_after_stage am rc attrs hnd a ha]
    rcases hrc : lookupKey rc a with _ | v <;>
      rcases hcur : lookupKey am a with _ | cur <;> simp [hrc, hcur]

theorem lookupKey_after_stage_isSome (am rc : List (String × Val))
    (attrs : List String) (hnd : attrs.Nodup) (a : String) (ha : a ∈ attrs)
    (h : (lookupKey am a).isSome) :
    (lookupKey (applyUpdate am (specStagedAttrs am rc attrs)) a).isSome := by
  rw [lookupKey_after_stage am rc attrs hnd a ha]
  rcases hrc : lookupKey rc a with _ | v <;>
    rcases hcur : lookupKey am a with _ | cur <;> simp_all

theorem settableAttrs_nodup : settableAttrs.Nodup := by decide

/-! ## Visibility sub-step -/

theorem applyVisibility_props (R : RepoState) (rc : List (String × Val)) :
    ∃ R' ch,
      applyVisibilitySettings allSuccess R (.dict rc) = .ok (R', ch) ∧
      R'.attrs = R.attrs ∧ R'.rulesets = R.rulesets ∧
      R'.vulnerabilityAlerts = R.vulnerabilityAlerts ∧
      R'.automatedSecurityFixes = R.automatedSecurityFixes ∧
      R'.topics = R.topics ∧
      applyVisibilitySettings allSuccess R' (.dict rc) = .ok (R', []) := by
  unfold applyVisibilitySettings
  rcases hv : getOpt rc "visibility" with _ | b | n | s | l | d
  case str =>
    by_cases hmem : s = "public" ∨ s = "private" ∨ s = "internal"
    · have hcont :
          [Val.str "public", Val.str "private", Val.str "internal"].contains
            (Val.str s) = true := by
        rcases hmem with rfl | rfl | rfl <;> decide
      have htr : pyTruthy (Val.str s) = true := by
        rcases hmem with rfl | rfl | rfl <;> decide
      by_cases hvis : R.visibility = s
      · refine ⟨R, [], ?_, rfl, rfl, rfl, rfl, rfl, ?_⟩ <;>
          (simp [hv, hcont, htr, hvis, Bind.bind, Except.bind, Pure.pure,
            Except.pure, allSuccess]
           try tauto)
      · refine ⟨{ R with visibility := s },
          [("visibility", R.visibility ++ " → " ++ s)], ?_, rfl, rfl, rfl,
          rfl, rfl, ?_⟩ <;>
          (simp [hv, hcont, htr, hvis, Bind.bind, Except.bind, Pure.pure,
            Except.pure, allSuccess]
           try tauto)
    · simp only [not_or] at hmem
      obtain ⟨h1, h2, h3⟩ := hmem
      refine ⟨R, [], ?_, rfl, rfl, rfl, rfl, rfl, ?_⟩ <;>
        (simp [hv, h1, h2, h3, pyTruthy, Bind.bind, Except.bind, Pure.pure,
          Except.pure]
         try tauto)
  all_goals
    refine ⟨R, [], ?_, rfl, rfl, rfl, rfl, rfl, ?_⟩ <;>
      simp [hv, pyTruthy, Bind.bind, Except.bind, Pure.pure, Except.pure]

/-! ## Full reconciliation run with no security/rulesets/status sections -/

theorem syncRepositoryWithConfig_plain (env : ApiEnv) (R Ra Rb : RepoState)
    (c rc : List (String × Val)) (chS : List (String × String))
    (calls : List (List (String × Val))) (chV : List (String × String))
    (hrepo : lookupKey c "repository" = some (.dict rc))
    (hsec : lookupKey rc "security" = none)
    (hrs : lookupKey rc "rulesets" = none)
    (hsc : lookupKey rc "status_checks" = none)
    (hset : syncRepoSettings env R (.dict rc) = .ok (Ra, chS, calls))
    (hvis : applyVisibilitySettings env Ra (.dict rc) = .ok (Rb, chV)) :
    syncRepositoryWithConfig env R (.dict c) = .ok (Rb, dictUpdate chS chV) := by
  unfold syncRepositoryWithConfig
  have hdef : getDefault c "repository" (.dict []) = .dict rc := by
    simp [getDefault, hrepo]
  simp [hdef, hset, hvis, pyContains, hasKey, hsec, hrs, hsc,
    Bind.bind, Except.bind, Pure.pure, Except.pure]

/-! ## Claims C2 and C3 -/

/-- Claim C2 (amended): reconciliation is idempotent for the scalar and
visibility settings — when the desired repository section carries no
`security`, `rulesets` or `status_checks` subsection, a second run from the
state the first run produced returns the same state and an empty ChangeSet.
(With those subsections present the second ChangeSet is non-empty, see the
counterexample: security toggles and ruleset syncs re-emit entries on every
run.) -/
theorem claim_C2_amended (R R₁ : RepoState) (ch₁ : List (String × String))
    (c rc : List (String × Val))
    (hattrs : ∀ a ∈ settableAttrs, (lookupKey R.attrs a).isSome)
    (hrepo : lookupKey c "repository" = some (.dict rc))
    (hsec : lookupKey rc "security" = none)
    (hrs : lookupKey rc "rulesets" = none)
    (hsc : lookupKey rc "status_checks" = none)
    (h1 : syncRepositoryWithConfig allSuccess R (.dict c) = .ok (R₁, ch₁)) :
    syncRepositoryWithConfig allSuccess R₁ (.dict c) = .ok (R₁, []) := by
  have hset := syncRepoSettings_spec allSuccess R rc rfl hattrs
  obtain ⟨Rb, chV, hvis, hbattrs, _, _, _, _, hvis2⟩ :=
    applyVisibility_props
      { R with attrs := applyUpdate R.attrs (specStagedAttrs R.attrs rc settableAttrs) } rc
  have hrun := syncRepositoryWithConfig_plain allSuccess R _ Rb c rc _ _ chV
    hrepo hsec hrs hsc hset hvis
  rw [h1] at hrun
  have hp := Except.ok.inj hrun
  obtain ⟨rfl, rfl⟩ : R₁ = Rb ∧
      ch₁ = dictUpdate (specScalarChanges R.attrs rc settableAttrs) chV :=
    ⟨congrArg Prod.fst hp, congrArg Prod.snd hp⟩
  -- second run: nothing is staged any more
  have hb : R₁.attrs =
      applyUpdate R.attrs (specStagedAttrs R.attrs rc settableAttrs) := hbattrs
  have hattrs₁ : ∀ a ∈ settableAttrs, (lookupKey R₁.attrs a).isSome := by
    intro a ha
    rw [hb]
    exact lookupKey_after_stage_isSome R.attrs rc settableAttrs
      settableAttrs_nodup a ha (hattrs a ha)
  have hafter := specStagedAttrs_after R.attrs rc settableAttrs settableAttrs_nodup
  have hset₂ : syncRepoSettings allSuccess R₁ (.dict rc) = .ok (R₁, [], []) := by
    have hspec := syncRepoSettings_spec allSuccess R₁ rc rfl hattrs₁
    rw [hb, hafter.1, hafter.2, applyUpdate_nil, ← hb] at hspec
    simpa using hspec
  have hrun₂ := syncRepositoryWithConfig_plain allSuccess R₁ R₁ R₁ c rc [] [] []
    hrepo hsec hrs hsc hset₂ hvis2
  simpa [dictUpdate] using hrun₂

/-- Claim C2 witness: the idempotence theorem applied to the example
repository and the wiki-disabling config — the first run flips `has_wiki`
and reports it, the second run returns the same state and an empty
ChangeSet. -/
theorem claim_C2_witness :
    syncRepositoryWithConfig allSuccess exampleRepo (.dict c2Cfg) =
      .ok (c2Repo1, [("has_wiki", "True → False")]) ∧
    syncRepositoryWithConfig allSuccess c2Repo1 (.dict c2Cfg) =
      .ok (c2Repo1, []) :=
  ⟨by decide,
   claim_C2_amended exampleRepo c2Repo1 [("has_wiki", "True → False")] c2Cfg
     [("has_wiki", .bool false)] (by decide) (by decide) (by decide)
     (by decide) (by decide) (by decide)⟩

/-- Claim C2 counterexample: with a `security` section enabled, the second
run still re-enables the feature and reports `vulnerability_alerts:
enabled` — the second ChangeSet is not empty, contradicting the claim. -/
theorem claim_C2_counterexample :
    syncRepositoryWithConfig allSuccess exampleRepo c2SecCfg =
      .ok (c2SecRepo, [("vulnerability_alerts", "enabled")]) ∧
    syncRepositoryWithConfig allSuccess c2SecRepo c2SecCfg =
      .ok (c2SecRepo, [("vulnerability_alerts", "enabled")]) ∧
    ([("vulnerability_alerts", "enabled")] : List (String × String)) ≠ [] :=
  ⟨by decide, by decide, by decide⟩

/-- Claim C3 (amended): for the nine recognized attributes (`has_issues`,
`has_projects`, `has_wiki`, `default_branch`, the four merge-strategy
flags, `delete_branch_on_merge` — `allow_update_branch` and `archived` are
NOT recognized by `_sync_repo_settings`, see the counterexample), scalar
reconciliation stages exactly the differing attributes into one single
batched edit call (no call when nothing differs) and records each as
`"<old> → <new>"`; attributes equal to the live value are neither staged
nor recorded. -/
theorem claim_C3_amended (env : ApiEnv) (R : RepoState)
    (rc : List (String × Val)) (henv : env.editFails = false)
    (hattrs : ∀ a ∈ settableAttrs, (lookupKey R.attrs a).isSome) :
    syncRepoSettings env R (.dict rc) =
      .ok ({ R with attrs :=
               applyUpdate R.attrs (specStagedAttrs R.attrs rc settableAttrs) },
           specScalarChanges R.attrs rc settableAttrs,
           if specStagedAttrs R.attrs rc settableAttrs = [] then []
           else [specStagedAttrs R.attrs rc settableAttrs]) :=
  syncRepoSettings_spec env R rc henv hattrs

/-- Claim C3 witness: the specification's scenario — live `has_wiki: True`,
desired `has_wiki: false` — yields the ChangeSet entry
`has_wiki: "True → False"` and exactly one batched edit call staging
exactly that attribute. -/
theorem claim_C3_witness :
    syncRepoSettings allSuccess exampleRepo (.dict [("has_wiki", .bool false)]) =
      .ok ({ exampleRepo with
               attrs := applyUpdate exampleRepo.attrs
                 (specStagedAttrs exampleRepo.attrs
                   [("has_wiki", .bool false)] settableAttrs) },
           specScalarChanges exampleRepo.attrs
             [("has_wiki", .bool false)] settableAttrs,
           if specStagedAttrs exampleRepo.attrs
                [("has_wiki", .bool false)] settableAttrs = [] then []
           else [specStagedAttrs exampleRepo.attrs
                   [("has_wiki", .bool false)] settableAttrs]) ∧
    specScalarChanges exampleRepo.attrs [("has_wiki", .bool false)]
        settableAttrs = [("has_wiki", "True → False")] ∧
    specStagedAttrs exampleRepo.attrs [("has_wiki", .bool false)]
        settableAttrs = [("has_wiki", .bool false)] :=
  ⟨claim_C3_amended allSuccess exampleRepo [("has_wiki", .bool false)] rfl
     (by decide), by decide, by decide⟩

/-- Claim C3 counterexample: `archived` differs between desired (`true`)
and live (`false`) yet `_sync_repo_settings` stages nothing, issues no edit
call and records nothing — `archived` is not in its recognized list,
contradicting the claim's attribute enumeration. -/
theorem claim_C3_counterexample :
    syncRepoSettings allSuccess exampleRepo (.dict [("archived", .bool true)]) =
      .ok (exampleRepo, [], []) ∧
    lookupKey exampleRepo.attrs "archived" = some (.bool false) ∧
    Val.bool false ≠ Val.bool true :=
  ⟨by decide, by decide, by decide⟩

/-! ## Claim C4: team membership sync -/

theorem addMembersLoop_spec (existing : List String) :
    ∀ (toAdd team : List String), toAdd.Nodup →
      (∀ m ∈ toAdd, m ∉ team) →
      addMembersLoop existing team toAdd =
        (team ++ toAdd.filter (fun m => existing.contains m),
         toAdd.filter (fun m => existing.contains m),
         toAdd.filter (fun m => !existing.contains m)) := by
  intro toAdd
  induction toAdd with
  | nil => intro team _ _; simp [addMembersLoop]
  | cons m rest ih =>
    intro team hnd hdisj
    have hm : m ∉ team := hdisj m (List.mem_cons_self m rest)
    have hmrest : m ∉ rest := (List.nodup_cons.mp hnd).1
    by_cases he : m ∈ existing
    · have hih := ih (team ++ [m]) (List.nodup_cons.mp hnd).2 (fun x hx => by
        simp only [List.mem_append, List.mem_singleton, not_or]
        exact ⟨hdisj x (List.mem_cons_of_mem m hx),
               fun hxm => hmrest (hxm ▸ hx)⟩)
      simp [addMembersLoop, he, hm, hih]
    · have hih := ih team (List.nodup_cons.mp hnd).2
        (fun x hx => hdisj x (List.mem_cons_of_mem m hx))
      simp [addMembersLoop, he, hm, hih]

theorem removeMembersLoop_spec (existing : List String) :
    ∀ (toRemove team : List String),
      (∀ m ∈ toRemove, m ∈ existing) →
      removeMembersLoop existing team toRemove =
        (team.filter (fun x => !toRemove.contains x), toRemove) := by
  intro toRemove
  induction toRemove with
  | nil => intro team _; simp [removeMembersLoop]
  | cons m rest ih =>
    intro team hex
    have he := hex m (List.mem_cons_self m rest)
    have hih := ih (team.filter (fun x => x != m))
      (fun x hx => hex x (List.mem_cons_of_mem m hx))
    simp [removeMembersLoop, he, hih]
    refine List.filter_congr (fun x _ => ?_)
    by_cases hxm : x = m <;> simp [hxm, Bool.and_comm]

/-- Claim C4: team membership sync is a pure set difference — members in
desired minus current that resolve to an existing account are added and
listed under `added`, unresolvable ones land in `not_found`, members in
current minus desired are removed and listed under `removed`, the
intersection is `already_members`, and the final team is the intersection
plus the successful additions.  (Hypothesis: current members are real
accounts, as live team members are.) -/
theorem claim_C4 (existing current members : List String)
    (hsub : ∀ m ∈ current, m ∈ existing) :
    syncTeamMembership existing current members =
      { added := (desiredMembers members).filter
          (fun m => !current.contains m && existing.contains m)
        removed := current.filter
          (fun m => !(desiredMembers members).contains m)
        alreadyMembers := current.filter
          (fun m => (desiredMembers members).contains m)
        notFound := (desiredMembers members).filter
          (fun m => !current.contains m && !existing.contains m)
        finalMembers := current.filter
            (fun m => (desiredMembers members).contains m) ++
          (desiredMembers members).filter
            (fun m => !current.contains m && existing.contains m) } := by
  have hndD : (desiredMembers members).Nodup := List.nodup_dedup _
  have hndA : ((desiredMembers members).filter
      (fun m => !current.contains m)).Nodup := hndD.filter _
  have hdisj : ∀ m ∈ (desiredMembers members).filter
      (fun m => !current.contains m), m ∉ current := by
    intro m hm
    have := (List.mem_filter.mp hm).2
    simpa using this
  have hexR : ∀ m ∈ current.filter
      (fun m => !(desiredMembers members).contains m), m ∈ existing :=
    fun m hm => hsub m (List.mem_filter.mp hm).1
  have hadd := addMembersLoop_spec existing
    ((desiredMembers members).filter (fun m => !current.contains m))
    current hndA hdisj
  have hrem := fun team => removeMembersLoop_spec existing
    (current.filter (fun m => !(desiredMembers members).contains m))
    team hexR
  have hAddF : ((desiredMembers members).filter
        (fun m => !current.contains m)).filter (fun m => existing.contains m) =
      (desiredMembers members).filter
        (fun m => !current.contains m && existing.contains m) := by
    rw [List.filter_filter]
    exact List.filter_congr (fun x _ => Bool.and_comm _ _)
  have hNfF : ((desiredMembers members).filter
        (fun m => !current.contains m)).filter
          (fun m => !existing.contains m) =
      (desiredMembers members).filter
        (fun m => !current.contains m && !existing.contains m) := by
    rw [List.filter_filter]
    exact List.filter_congr (fun x _ => Bool.and_comm _ _)
  simp only [syncTeamMembership, hadd, hrem, hAddF, hNfF]
  congr 1
  rw [List.filter_append]
  refine congrArg₂ (· ++ ·) ?_ ?_
  · refine List.filter_congr (fun x hx => ?_)
    by_cases hd : x ∈ desiredMembers members
    · have hnr : x ∉ current.filter
          (fun m => !(desiredMembers members).contains m) := by
        simp [List.mem_filter, hd]
      simp [hnr, hd]
    · have hxr : x ∈ current.filter
          (fun m => !(desiredMembers members).contains m) :=
        List.mem_filter.mpr ⟨hx, by simp [hd]⟩
      simp [hxr, hd, hx]
  · refine List.filter_eq_self.mpr (fun a ha => ?_)
    have haC : a ∉ current := by
      have := (List.mem_filter.mp ha).2
      intro hc
      simp [hc] at this
    simp [List.mem_filter, haC]

/-- Claim C4 witness: the specification's scenario — current
`alice, bob`, desired `bob, carol`, all three resolvable — gives
`added = [carol]`, `removed = [alice]`, `already_members = [bob]`,
no `not_found`, and the team ends as `bob, carol`. -/
theorem claim_C4_witness :
    syncTeamMembership ["alice", "bob", "carol"] ["alice", "bob"]
        ["bob", "carol"] =
      { added := ["carol"], removed := ["alice"], alreadyMembers := ["bob"]
        notFound := [], finalMembers := ["bob", "carol"] } :=
  (claim_C4 ["alice", "bob", "carol"] ["alice", "bob"] ["bob", "carol"]
    (by decide)).trans (by decide)


/-! ## Claims C5 and C8: error containment -/

theorem stageAttrs_no_keys (attrs : List String) (am rc : List (String × Val))
    (h : ∀ a ∈ attrs, lookupKey rc a = none) :
    stageAttrs am (.dict rc) attrs = .ok ([], []) := by
  induction attrs with
  | nil => rfl
  | cons a rest ih =>
    have ha := h a (List.mem_cons_self a rest)
    have hrest := ih (fun b hb => h b (List.mem_cons_of_mem a hb))
    simp [stageAttrs, pyContains, hasKey, ha, hrest, Bind.bind, Except.bind]

/-- Claim C5 (amended): exceptions are contained per repository — a failing
repository contributes the string `"Error: <e>"` to the sync-all results
and the remaining repositories are still reconciled — and within one
repository the rulesets sub-step folds an API failure into an `error`
ChangeSet entry while the following status-checks sub-step still runs;
exceptions in the scalar-settings or security sub-steps, however, abort the
rest of that repository's reconciliation (see the counterexample). -/
theorem claim_C5_amended :
    (∀ (env : ApiEnv) (defaultConfig : List (String × Val)) (r : OrgRepo)
        (rest : List OrgRepo) (e : String),
      syncRepositoryWithConfig env r.state
          (getRepositoryConfig defaultConfig r.configFile) = .error e →
      syncAllRepositories env defaultConfig (r :: rest) =
        (r.name, SyncResult.errorMsg ("Error: " ++ e)) ::
          syncAllRepositories env defaultConfig rest) ∧
    (∀ (env : ApiEnv) (R : RepoState),
      env.rulesetEditFails = true → env.statusCheckFails = false →
      Val.str "r1" ∈ R.rulesets.map RulesetLive.name →
      syncRepositoryWithConfig env R c5RsScCfg =
        .ok (R, [("error", "GithubException: ruleset edit failed"),
                 ("status_checks_main", "updated: ci")])) := by
  constructor
  · intro env defaultConfig r rest e h
    simp [syncAllRepositories, h]
  · intro env R hedit hsc hmem
    have hstage : stageAttrs R.attrs
        (.dict [("rulesets", .list [.dict [("name", .str "r1")]]),
                ("status_checks",
                 .list [.dict [("branch", .str "main"),
                               ("checks", .list [.dict [("context", .str "ci")]])]])])
        settableAttrs = .ok ([], []) :=
      stageAttrs_no_keys settableAttrs R.attrs _ (by decide)
    have hcont : (R.rulesets.map RulesetLive.name).contains (Val.str "r1") = true := by
      simpa using hmem
    have hex : ∃ a ∈ R.rulesets, a.name = Val.str "r1" := by simpa using hmem
    have hctx : extractContexts (Val.list [Val.dict [("context", Val.str "ci")]]) =
        Except.ok [Val.str "ci"] := by decide
    have hjoin : joinContexts [Val.str "ci"] = Except.ok "ci" := by decide
    simp [c5RsScCfg, syncRepositoryWithConfig, syncRepoSettings, hstage, hex,
      applyVisibilitySettings, syncSecuritySettings, syncRulesets,
      syncRulesetsLoop, statusChecksAll, statusChecksAll.statusChecksGo,
      syncStatusChecks, hctx, hjoin, getDefault, getOpt,
      lookupKey, pyContains, pyGetItem, pyTruthy, pyStr, hasKey, hedit, hsc,
      hcont, mkRulesetParams, dictUpdate, setKey,
      Bind.bind, Except.bind, Pure.pure, Except.pure]

/-- Claim C5 (counterexample): an exception in the scalar-settings sub-step
(`repo.edit` failing) is not caught — reconciliation of the repository
aborts with the exception instead of recording an `error:` entry and
continuing with the remaining sub-steps. -/
theorem claim_C5_counterexample :
    syncRepositoryWithConfig { allSuccess with editFails := true }
        exampleRepo c5Cfg = .error "GithubException: repo.edit failed" := by
  decide

/-- Claim C5 witness: a concrete failing repository is recorded as an error
string while the next repository still syncs; and the ruleset-failure
containment at a concrete repository. -/
theorem claim_C5_witness :
    syncAllRepositories { allSuccess with editFails := true } []
        [{ name := "svc-a", state := exampleRepo, configFile := .ok c5Cfg },
         { name := "svc-b", state := exampleRepo, configFile := .ok c2SecCfg }] =
      [("svc-a", SyncResult.errorMsg "Error: GithubException: repo.edit failed"),
       ("svc-b", SyncResult.changes [("vulnerability_alerts", "enabled")])] ∧
    syncRepositoryWithConfig { allSuccess with rulesetEditFails := true }
        exampleRepoR1 c5RsScCfg =
      .ok (exampleRepoR1,
           [("error", "GithubException: ruleset edit failed"),
            ("status_checks_main", "updated: ci")]) := by
  constructor
  · exact (claim_C5_amended.1 { allSuccess with editFails := true } []
      { name := "svc-a", state := exampleRepo, configFile := .ok c5Cfg }
      [{ name := "svc-b", state := exampleRepo, configFile := .ok c2SecCfg }]
      "GithubException: repo.edit failed" (by decide)).trans (by decide)
  · exact claim_C5_amended.2 { allSuccess with rulesetEditFails := true }
      exampleRepoR1 rfl rfl (by decide)

theorem updaterParamsLoop_spec (attrs : List String) (R : RepoState)
    (rc : List (String × Val))
    (h : ∀ a ∈ attrs, (lookupKey R.attrs a).isSome) :
    updaterParamsLoop R rc attrs =
      .ok (attrs.map (fun a =>
        (a, getDefault rc a ((lookupKey R.attrs a).getD .null)))) := by
  induction attrs with
  | nil => rfl
  | cons a rest ih =>
    have ha := h a (List.mem_cons_self a rest)
    have hrest := ih (fun b hb => h b (List.mem_cons_of_mem a hb))
    rcases hcur : lookupKey R.attrs a with _ | cur
    · rw [hcur] at ha; simp at ha
    · simp [updaterParamsLoop, getattrRepo, hcur, hrest,
        Bind.bind, Except.bind, Pure.pure, Except.pure]

/-- Claim C8 (amended): in `RepositoryUpdater._update_repository_settings`
each security enable is independently fault-tolerant — when enabling
vulnerability alerts fails, the failure becomes a logged warning, the
automated-security-fixes enable still runs, and the method still returns
normally with the batched `repo.edit` applied.  In
`RepoSyncManager._sync_security_settings` there is no such containment:
the failure propagates and aborts reconciliation (see the
counterexample). -/
theorem claim_C8_amended (env : ApiEnv) (R : RepoState)
    (rc sd : List (String × Val))
    (hedit : env.editFails = false)
    (hvfail : env.vulnerabilityAlertFails = true)
    (hfok : env.securityFixesFails = false)
    (hattrs : ∀ a ∈ updaterAttrs, (lookupKey R.attrs a).isSome)
    (hsec : getDefault rc "security" (.dict []) = .dict sd)
    (hv : pyTruthy (getDefault sd "enableVulnerabilityAlerts" (.bool false)) = true)
    (hf : pyTruthy (getDefault sd "enableAutomatedSecurityFixes" (.bool false)) = true)
    (htop : pyTruthy (getDefault rc "topics" (.list [])) = false) :
    updateRepositorySettings env R (.dict rc) =
      .ok ({ R with
               attrs := applyUpdate R.attrs (updaterEditParams R.attrs rc),
               automatedSecurityFixes := true },
           ["Could not enable vulnerability alerts: GithubException"]) := by
  simp [updateRepositorySettings, updaterEditParams,
    updaterParamsLoop_spec updaterAttrs R rc hattrs,
    hedit, hvfail, hfok, hsec, hv, hf, htop,
    Bind.bind, Except.bind, Pure.pure, Except.pure]

/-- Claim C8 (counterexample): in `RepoSyncManager`, a failing
`enable_vulnerability_alert` call aborts the whole reconciliation — the
ChangeSet containing the already-applied scalar change is lost and the
exception propagates, contradicting the claim for the cited
`_sync_security_settings`. -/
theorem claim_C8_counterexample :
    syncRepositoryWithConfig { allSuccess with vulnerabilityAlertFails := true }
        exampleRepo c8Cfg =
      .error "GithubException: enable_vulnerability_alert failed" := by
  decide

/-- Claim C8 witness: the amended theorem at a concrete repository and
config — the updater returns normally, records the warning, enables the
fixes, and applies the edit. -/
theorem claim_C8_witness :
    updateRepositorySettings { allSuccess with vulnerabilityAlertFails := true }
        exampleRepo
        (.dict [("security",
                 .dict [("enableVulnerabilityAlerts", .bool true),
                        ("enableAutomatedSecurityFixes", .bool true)])]) =
      .ok ({ exampleRepo with
               attrs := applyUpdate exampleRepo.attrs
                 (updaterEditParams exampleRepo.attrs
                   [("security",
                     .dict [("enableVulnerabilityAlerts", .bool true),
                            ("enableAutomatedSecurityFixes", .bool true)])]),
               automatedSecurityFixes := true },
           ["Could not enable vulnerability alerts: GithubException"]) :=
  claim_C8_amended { allSuccess with vulnerabilityAlertFails := true }
    exampleRepo
    [("security",
      .dict [("enableVulnerabilityAlerts", .bool true),
             ("enableAutomatedSecurityFixes", .bool true)])]
    [("enableVulnerabilityAlerts", .bool true),
     ("enableAutomatedSecurityFixes", .bool true)]
    rfl rfl rfl (by decide) (by decide) (by decide) (by decide) (by decide)

/-! ## Claim C9: ruleset reconciliation -/

theorem setKey_append {α : Type} (ch : List (String × α)) (k : String) (v : α)
    (h : k ∉ ch.map Prod.fst) : setKey ch k v = ch ++ [(k, v)] := by
  induction ch with
  | nil => rfl
  | cons hd tl ih =>
    obtain ⟨k', v'⟩ := hd
    have hne : k' ≠ k := by rintro rfl; exact h (by simp)
    have htl : k ∉ tl.map Prod.fst := fun hm => h (by simp [hm])
    simp [setKey, hne, ih htl]

theorem string_append_cancel {a b c : String} (h : a ++ b = a ++ c) : b = c := by
  have hd := congrArg String.data h
  rw [String.data_append, String.data_append] at hd
  exact String.ext (List.append_cancel_left hd)

theorem specEditedRuleset_name (P : List (List (String × Val)))
    (r : RulesetLive) : (specEditedRuleset P r).name = r.name := by
  unfold specEditedRuleset
  rcases h : P.find? (fun d => getOpt d "name" == r.name) with _ | d <;>
    simp [h, mkRulesetParams]

theorem editFirstByName_append_left (A B : List RulesetLive) (n : Val)
    (p : RulesetLive) (h : ∃ a ∈ A, a.name = n) :
    editFirstByName (A ++ B) n p = editFirstByName A n p ++ B := by
  induction A with
  | nil => simp at h
  | cons a rest ih =>
    by_cases ha : a.name = n
    · simp [editFirstByName, ha]
    · have h' : ∃ b ∈ rest, b.name = n := by
        rcases h with ⟨b, hb, hbn⟩
        rcases List.mem_cons.mp hb with rfl | hbr
        · exact absurd hbn ha
        · exact ⟨b, hbr, hbn⟩
      simp [editFirstByName, ha, ih h']

theorem editFirstByName_map (A : List RulesetLive)
    (f g : RulesetLive → RulesetLive) (n : Val) (p : RulesetLive)
    (hf : ∀ a ∈ A, (f a).name = a.name)
    (hnd : (A.map RulesetLive.name).Nodup)
    (hg : ∀ a ∈ A, g a = if a.name = n then p else f a)
    (hn : n ∈ A.map RulesetLive.name) :
    editFirstByName (A.map f) n p = A.map g := by
  induction A with
  | nil => simp at hn
  | cons a rest ih =>
    simp only [List.map_cons]
    by_cases ha : a.name = n
    · have hfa : (f a).name = n := by
        rw [hf a (List.mem_cons_self a rest), ha]
      have hga : g a = p := by
        rw [hg a (List.mem_cons_self a rest), if_pos ha]
      have hrest : rest.map g = rest.map f := by
        refine List.map_congr_left (fun b hb => ?_)
        have hbn : b.name ≠ n := by
          intro hbe
          have : a.name ∈ rest.map RulesetLive.name := by
            rw [ha, ← hbe]
            exact List.mem_map_of_mem RulesetLive.name hb
          exact (List.nodup_cons.mp (by simpa using hnd)).1 this
        rw [hg b (List.mem_cons_of_mem a hb), if_neg hbn]
      simp [editFirstByName, hfa, hga, hrest]
    · have hfa : ¬((f a).name = n) := by
        rw [hf a (List.mem_cons_self a rest)]; exact ha
      have hga : g a = f a := by
        rw [hg a (List.mem_cons_self a rest), if_neg ha]
      have hn' : n ∈ rest.map RulesetLive.name := by
        rcases (by simpa using hn : n = a.name ∨ ∃ b ∈ rest, b.name = n) with
          h | ⟨b, hb, hbn⟩
        · exact absurd h.symm ha
        · exact List.mem_map.mpr ⟨b, hb, hbn⟩
      rw [editFirstByName, if_neg hfa, hga,
        ih (fun b hb => hf b (List.mem_cons_of_mem a hb))
          (by simpa using (List.nodup_cons.mp (by simpa using hnd)).2)
          (fun b hb => hg b (List.mem_cons_of_mem a hb)) hn']

theorem specEditedRuleset_snoc (P : List (List (String × Val)))
    (d : List (String × Val)) (n : Val) (hd : getOpt d "name" = n)
    (hP : ∀ c ∈ P, getOpt c "name" ≠ n) (r : RulesetLive) :
    specEditedRuleset (P ++ [d]) r =
      if r.name = n then mkRulesetParams d r.name else specEditedRuleset P r := by
  by_cases hr : r.name = n
  · unfold specEditedRuleset
    rw [List.find?_append]
    have hnone : P.find? (fun c => getOpt c "name" == r.name) = none := by
      rw [List.find?_eq_none]
      intro c hc
      simp [hr, hP c hc]
    have hone : [d].find? (fun c => getOpt c "name" == r.name) = some d := by
      have hb : (getOpt d "name" == r.name) = true := by simp [hd, hr]
      simp [List.find?, hb]
    rw [hnone, hone]
    simp [hr]
  · unfold specEditedRuleset
    rw [List.find?_append]
    have hone : [d].find? (fun c => getOpt c "name" == r.name) = none := by
      have hb : (getOpt d "name" == r.name) = false := by
        simp [hd]
        exact fun h => hr h.symm
      simp [List.find?, hb]
    rw [hone, if_neg hr]
    rcases hfp : P.find? (fun c => getOpt c "name" == r.name) with _ | c <;>
      simp [hfp]

theorem specCreatedRulesets_snoc (stale : List Val)
    (P : List (List (String × Val))) (d : List (String × Val)) :
    specCreatedRulesets stale (P ++ [d]) =
      specCreatedRulesets stale P ++
        (if stale.contains (getOpt d "name") then []
         else [mkRulesetParams d (getOpt d "name")]) := by
  unfold specCreatedRulesets
  rw [List.filter_append]
  by_cases h : getOpt d "name" ∈ stale <;> simp [h]

theorem specRulesetChanges_snoc (stale : List Val)
    (P : List (List (String × Val))) (d : List (String × Val)) :
    specRulesetChanges stale (P ++ [d]) =
      specRulesetChanges stale P ++
        [("ruleset_" ++ pyStr (getOpt d "name"),
          if stale.contains (getOpt d "name") then "updated" else "created")] := by
  unfold specRulesetChanges
  rw [List.map_append]
  rfl

theorem syncRulesetsLoop_invariant (env : ApiEnv)
    (he : env.rulesetEditFails = false) (hc : env.rulesetCreateFails = false)
    (R₀ : RepoState) (hlive : (R₀.rulesets.map RulesetLive.name).Nodup) :
    ∀ (cfgs P : List (List (String × Val))),
      (∀ d ∈ P ++ cfgs, ∃ s, getOpt d "name" = Val.str s ∧ s ≠ "") →
      ((P ++ cfgs).map (fun d => getOpt d "name")).Nodup →
      syncRulesetsLoop env (R₀.rulesets.map RulesetLive.name)
        { R₀ with rulesets :=
            R₀.rulesets.map (specEditedRuleset P) ++
            specCreatedRulesets (R₀.rulesets.map RulesetLive.name) P }
        (specRulesetChanges (R₀.rulesets.map RulesetLive.name) P)
        (cfgs.map Val.dict) =
      ({ R₀ with rulesets :=
           R₀.rulesets.map (specEditedRuleset (P ++ cfgs)) ++
           specCreatedRulesets (R₀.rulesets.map RulesetLive.name) (P ++ cfgs) },
       specRulesetChanges (R₀.rulesets.map RulesetLive.name) (P ++ cfgs)) := by
  intro cfgs
  induction cfgs with
  | nil =>
    intro P _ _
    simp [syncRulesetsLoop]
  | cons d rest ih =>
    intro P hshape hnd
    obtain ⟨s, hds, hs⟩ := hshape d (by simp)
    have hPne : ∀ c ∈ P, getOpt c "name" ≠ getOpt d "name" := by
      intro c hc hEq
      have hmemP : getOpt d "name" ∈ P.map (fun c => getOpt c "name") := by
        rw [← hEq]
        exact List.mem_map_of_mem _ hc
      have hmemR : getOpt d "name" ∈
          ((d :: rest).map (fun c => getOpt c "name")) := by simp
      rw [List.map_append] at hnd
      exact (List.disjoint_of_nodup_append hnd) hmemP hmemR
    have htr : pyTruthy (getOpt d "name") = true := by
      rw [hds]; simp [pyTruthy, hs]
    have hkey : ("ruleset_" ++ pyStr (getOpt d "name")) ∉
        (specRulesetChanges (R₀.rulesets.map RulesetLive.name) P).map Prod.fst := by
      intro hmem
      unfold specRulesetChanges at hmem
      rw [List.map_map] at hmem
      obtain ⟨c, hc, hck⟩ := List.mem_map.mp hmem
      obtain ⟨sc, hcs, _⟩ := hshape c (by simp [hc])
      have : pyStr (getOpt c "name") = pyStr (getOpt d "name") :=
        string_append_cancel hck
      rw [hcs, hds] at this
      exact hPne c hc (by rw [hcs, hds]; simpa [pyStr] using this)
    have hshape' : ∀ c ∈ (P ++ [d]) ++ rest,
        ∃ t, getOpt c "name" = Val.str t ∧ t ≠ "" := by
      intro c hc
      exact hshape c (by simpa [List.append_assoc] using hc)
    have hnd' : (((P ++ [d]) ++ rest).map (fun c => getOpt c "name")).Nodup := by
      simpa [List.append_assoc] using hnd
    have hih := ih (P ++ [d]) hshape' hnd'
    rw [List.append_assoc, List.singleton_append] at hih
    by_cases hst :
        (R₀.rulesets.map RulesetLive.name).contains (getOpt d "name") = true
    · -- the desired ruleset matches a live one: it is edited in place
      have hmemn : getOpt d "name" ∈ R₀.rulesets.map RulesetLive.name := by
        simpa using hst
      have hexA : ∃ a ∈ R₀.rulesets.map (specEditedRuleset P),
          a.name = getOpt d "name" := by
        obtain ⟨r, hr, hrn⟩ := List.mem_map.mp hmemn
        exact ⟨specEditedRuleset P r, List.mem_map_of_mem _ hr,
          by rw [specEditedRuleset_name]; exact hrn⟩
      have hedit : editFirstByName
          (R₀.rulesets.map (specEditedRuleset P) ++
            specCreatedRulesets (R₀.rulesets.map RulesetLive.name) P)
          (getOpt d "name") (mkRulesetParams d (getOpt d "name")) =
          R₀.rulesets.map (specEditedRuleset (P ++ [d])) ++
            specCreatedRulesets (R₀.rulesets.map RulesetLive.name) P := by
        rw [editFirstByName_append_left _ _ _ _ hexA]
        congr 1
        refine editFirstByName_map R₀.rulesets _ _ _ _
          (fun a _ => specEditedRuleset_name P a) hlive (fun a _ => ?_) hmemn
        rw [specEditedRuleset_snoc P d (getOpt d "name") rfl hPne a]
        by_cases han : a.name = getOpt d "name" <;> simp [han]
      rw [specCreatedRulesets_snoc, specRulesetChanges_snoc] at hih
      simp only [hst, if_true, List.append_nil] at hih
      simp only [List.map_cons, syncRulesetsLoop]
      simp only [htr, hst, he, Bool.false_eq_true, if_true, if_false,
        ite_true, ite_false]
      rw [hedit, setKey_append _ _ _ hkey]
      exact hih
    · -- no live ruleset with that name: a new one is created
      have hstf : (R₀.rulesets.map RulesetLive.name).contains
          (getOpt d "name") = false := by
        simpa using hst
      have hnomem : ∀ a ∈ R₀.rulesets, a.name ≠ getOpt d "name" := by
        intro a ha hEq
        have hmm : getOpt d "name" ∈ R₀.rulesets.map RulesetLive.name :=
          List.mem_map.mpr ⟨a, ha, hEq⟩
        exact hst (by simpa using hmm)
      have hmapeq : R₀.rulesets.map (specEditedRuleset (P ++ [d])) =
          R₀.rulesets.map (specEditedRuleset P) := by
        refine List.map_congr_left (fun a ha => ?_)
        rw [specEditedRuleset_snoc P d (getOpt d "name") rfl hPne a,
          if_neg (hnomem a ha)]
      rw [specCreatedRulesets_snoc, specRulesetChanges_snoc, hmapeq] at hih
      simp only [hstf, Bool.false_eq_true, if_false, ite_false] at hih
      simp only [List.map_cons, syncRulesetsLoop]
      simp only [htr, hstf, hc, Bool.false_eq_true, if_true, if_false,
        ite_true, ite_false]
      rw [setKey_append _ _ _ hkey]
      rw [← List.append_assoc] at hih
      exact hih

/-- Claim C9: ruleset reconciliation looks up each named desired ruleset
among the live rulesets by name; a match is edited in place with the full
desired parameters (target, enforcement, conditions, rules replaced
wholesale, with the documented defaults) and recorded as `updated`,
otherwise a new ruleset is created and recorded as `created`; live
rulesets whose names are absent from the desired configuration are mapped
to themselves — never deleted, with no entry and no error.  (Hypotheses:
API calls succeed, desired rulesets carry non-empty string names, and
names are unique, as GitHub guarantees for live rulesets.) -/
theorem claim_C9 (env : ApiEnv) (R : RepoState)
    (cfgs : List (List (String × Val)))
    (he : env.rulesetEditFails = false) (hc : env.rulesetCreateFails = false)
    (hshape : ∀ d ∈ cfgs, ∃ s, getOpt d "name" = Val.str s ∧ s ≠ "")
    (hnd : (cfgs.map (fun d => getOpt d "name")).Nodup)
    (hlive : (R.rulesets.map RulesetLive.name).Nodup) :
    syncRulesets env R (.list (cfgs.map Val.dict)) =
      ({ R with rulesets :=
           R.rulesets.map (specEditedRuleset cfgs) ++
           specCreatedRulesets (R.rulesets.map RulesetLive.name) cfgs },
       specRulesetChanges (R.rulesets.map RulesetLive.name) cfgs) := by
  have hstart := syncRulesetsLoop_invariant env he hc R hlive cfgs []
    (by simpa using hshape) (by simpa using hnd)
  have hnilmap : R.rulesets.map (specEditedRuleset []) = R.rulesets := by
    have h0 : ∀ a ∈ R.rulesets, specEditedRuleset [] a = a := fun a _ => rfl
    rw [List.map_congr_left h0]
    simp
  rw [hnilmap,
    show specCreatedRulesets (List.map RulesetLive.name R.rulesets) [] = []
      from rfl, List.append_nil] at hstart
  simp only [List.nil_append] at hstart
  simpa [syncRulesets] using hstart

/-- Claim C9 witness: against a live ruleset `r1`, desired rulesets `r1`
(with enforcement `evaluate`) and `r2` produce an in-place wholesale edit
of `r1`, a creation of `r2`, and the ChangeSet
`ruleset_r1: updated, ruleset_r2: created`. -/
theorem claim_C9_witness :
    syncRulesets allSuccess exampleRepoR1 (.list (c9Cfgs.map Val.dict)) =
      ({ exampleRepoR1 with rulesets :=
           [{ name := .str "r1", target := .str "branch"
              enforcement := .str "evaluate", conditions := .dict []
              rules := .list [] },
            { name := .str "r2", target := .str "branch"
              enforcement := .str "active", conditions := .dict []
              rules := .list [] }] },
       [("ruleset_r1", "updated"), ("ruleset_r2", "created")]) :=
  (claim_C9 allSuccess exampleRepoR1 c9Cfgs rfl rfl
    (by
      intro d hd
      simp only [c9Cfgs, List.mem_cons, List.not_mem_nil, or_false] at hd
      rcases hd with rfl | rfl
      · exact ⟨"r1", by decide, by decide⟩
      · exact ⟨"r2", by decide, by decide⟩)
    (by decide) (by decide)).trans (by decide)

end RepoAsCode
